import Mathlib

/-
  Verification development for the go-db-migration engine.

  The Go sources are shallowly embedded:
  * `internal/models` data types become Lean structures;
  * the pure schema differ (`internal/schema/schema.go`) becomes pure
    functions over association lists that model Go's string-keyed maps
    (insert overwrites the existing entry for a key);
  * the database-backed validator and remediator
    (`internal/database/database.go`) are modelled against an explicit
    `DBState` (the live catalog plus row data); SQL queries that can fail
    at runtime (referencing a missing relation or column) return `Except`.
-/

namespace DBMig

/-! ## Data model (internal/models/models.go) -/

/-- `models.Column`.  `DefaultValue` is `interface{}` in Go; we model it as
`Option String`, where `some s` is a non-nil decoded value whose `fmt %v`
rendering is `s`, and `none` is Go `nil`. -/
structure Column where
  ColumnName : String
  DataType : String
  DefaultValue : Option String := none
  IsNullable : String := "YES"
  CharacterMaxLength : Option Int := none
  NumericPrecision : Option Int := none
  NumericScale : Option Int := none
  DatetimePrecision : Option Int := none
  deriving Repr, DecidableEq

/-- `models.ForeignKey`. -/
structure ForeignKey where
  ConstraintName : String := ""
  TableName : String := ""
  ColumnName : String := ""
  ReferencedTable : String := ""
  ReferencedColumn : String := ""
  UpdateRule : String := ""
  DeleteRule : String := ""
  deriving Repr, DecidableEq

/-- `models.Table`. -/
structure Table where
  TableName : String
  Columns : List Column := []
  ForeignKeys : List ForeignKey := []
  deriving Repr, DecidableEq

/-- `models.Schema` is an ordered sequence of tables. -/
abbrev Schema := List Table

/-- `Column.IsNotNull`: true when the column is marked `"NO"` (NOT NULL). -/
def Column.IsNotNull (c : Column) : Bool :=
  c.IsNullable == "NO"

/-- `models.ValidationIssue`.  The free-form `Details` map is modelled as an
association list of string renderings.  The Go field `Type` is a Lean
keyword, so it is written with the escaped identifier `«Type»`. -/
structure ValidationIssue where
  «Type» : String
  Severity : String
  Table : String
  Column : String := ""
  Message : String := ""
  PrimaryKey : String := ""
  Identifier : String := ""
  Details : List (String × String) := []
  deriving Repr, DecidableEq

/-- `models.ColumnDiff`. -/
structure ColumnDiff where
  Current : Column
  Target : Column
  deriving Repr, DecidableEq

/-- `models.ForeignKeyDifference`. -/
structure ForeignKeyDifference where
  Missing : List ForeignKey := []
  Extra : List ForeignKey := []
  deriving Repr, DecidableEq

/-- `models.TableDifference`.  `ModifiedColumns` is a Go map keyed by column
name. -/
structure TableDifference where
  MissingColumns : List Column := []
  ExtraColumns : List Column := []
  ModifiedColumns : List (String × ColumnDiff) := []
  ForeignKeyDiffs : ForeignKeyDifference := {}
  deriving Repr, DecidableEq

/-- `models.SchemaComparison`. -/
structure SchemaComparison where
  MissingTables : List String := []
  ExtraTables : List String := []
  TableDifferences : List (String × TableDifference) := []
  deriving Repr, DecidableEq

/-- `models.FixResult` (per-table tally of a fix run). -/
structure FixResult where
  IssuesFound : Nat := 0
  RecordsAffected : Nat := 0
  Success : Bool := false
  Error : String := ""
  Details : String := ""
  deriving Repr, DecidableEq

/-- `config.ValidationConfig`. -/
structure ValidationConfig where
  IgnoreMissingTables : Bool := false
  IgnoreMissingColumns : Bool := false
  StopOnFirstError : Bool := false
  MaxIssuesPerTable : Nat := 1000
  deriving Repr, DecidableEq

/-! ## Go map model

Go's `map[string]T` written by `m[k] = v` statements is modelled as an
association list where insertion overwrites the entry for an existing key
(so keys stay unique).  Iteration order in Go is unspecified; the model
iterates in insertion order, and every property proved about iteration
results is order-independent (set-membership level). -/

/-- Insert/overwrite for the Go-map model. -/
def mapInsert {α : Type} : List (String × α) → String → α → List (String × α)
  | [], k, v => [(k, v)]
  | (k', v') :: rest, k, v =>
    if k' == k then (k, v) :: rest else (k', v') :: mapInsert rest k v

/-- Lookup for the Go-map model (`m[k]`, comma-ok form). -/
def mapLookup {α : Type} : List (String × α) → String → Option α
  | [], _ => none
  | (k', v') :: rest, k => if k' == k then some v' else mapLookup rest k

/-- `_, ok := m[k]` for the Go-map model. -/
def mapContains {α : Type} (m : List (String × α)) (k : String) : Bool :=
  (mapLookup m k).isSome

/-- Build a Go map from a list, keyed by `key` (later entries overwrite). -/
def buildMap {α : Type} (key : α → String) (l : List α) : List (String × α) :=
  l.foldl (fun m a => mapInsert m (key a) a) []

/-- Key uniqueness invariant of the Go-map model. -/
def KeysNodup {α : Type} (m : List (String × α)) : Prop :=
  (m.map Prod.fst).Nodup

/-! ## Differ (internal/schema/schema.go) -/

/-- Go's `fmt.Sprintf("%v", x)` applied to a modelled default value:
`nil` renders as `<nil>`. -/
def goFormatV : Option String → String
  | none => "<nil>"
  | some s => s

/-- `areColumnsEqual`: compares data type, nullability, and the `%v` string
form of the default values. -/
def areColumnsEqual (current target : Column) : Bool :=
  current.DataType == target.DataType &&
  current.IsNullable == target.IsNullable &&
  goFormatV current.DefaultValue == goFormatV target.DefaultValue

/-- The composite identity key built by `compareForeignKeys`:
`table.column->refTable.refColumn`. -/
def fkKey (fk : ForeignKey) : String :=
  fk.TableName ++ "." ++ fk.ColumnName ++ "->" ++
    fk.ReferencedTable ++ "." ++ fk.ReferencedColumn

/-- The `currentFKMap`/`targetFKMap` built inside `compareForeignKeys`. -/
def buildFKMap (fks : List ForeignKey) : List (String × ForeignKey) :=
  buildMap fkKey fks

/-- `compareForeignKeys`: key-level set difference of the two FK maps. -/
def compareForeignKeys (currentFKs targetFKs : List ForeignKey) :
    ForeignKeyDifference :=
  let currentFKMap := buildFKMap currentFKs
  let targetFKMap := buildFKMap targetFKs
  { Missing := (targetFKMap.filter
      (fun kv => !(mapContains currentFKMap kv.1))).map Prod.snd
    Extra := (currentFKMap.filter
      (fun kv => !(mapContains targetFKMap kv.1))).map Prod.snd }

/-- The per-table column maps built inside `compareTableStructures`. -/
def buildColumnMap (cols : List Column) : List (String × Column) :=
  buildMap Column.ColumnName cols

/-- `compareTableStructures`. -/
def compareTableStructures (currentTable targetTable : Table) : TableDifference :=
  let currentColumns := buildColumnMap currentTable.Columns
  let targetColumns := buildColumnMap targetTable.Columns
  { MissingColumns := (targetColumns.filter
      (fun kv => !(mapContains currentColumns kv.1))).map Prod.snd
    ExtraColumns := (currentColumns.filter
      (fun kv => !(mapContains targetColumns kv.1))).map Prod.snd
    ModifiedColumns := targetColumns.filterMap (fun kv =>
      match mapLookup currentColumns kv.1 with
      | some currentColumn =>
        if areColumnsEqual currentColumn kv.2 then none
        else some (kv.1, ColumnDiff.mk currentColumn kv.2)
      | none => none)
    ForeignKeyDiffs :=
      compareForeignKeys currentTable.ForeignKeys targetTable.ForeignKeys }

/-- `isTableDifferenceEmpty`. -/
def isTableDifferenceEmpty (diff : TableDifference) : Bool :=
  diff.MissingColumns.isEmpty && diff.ExtraColumns.isEmpty &&
  diff.ModifiedColumns.isEmpty && diff.ForeignKeyDiffs.Missing.isEmpty &&
  diff.ForeignKeyDiffs.Extra.isEmpty

/-- The `currentTables`/`targetTables` maps built inside `CompareSchemas`. -/
def buildTableMap (schema : Schema) : List (String × Table) :=
  buildMap Table.TableName schema

/-- `CompareSchemas`. -/
def CompareSchemas (currentSchema targetSchema : Schema) : SchemaComparison :=
  let currentTables := buildTableMap currentSchema
  let targetTables := buildTableMap targetSchema
  { MissingTables := (targetTables.filter
      (fun kv => !(mapContains currentTables kv.1))).map Prod.fst
    ExtraTables := (currentTables.filter
      (fun kv => !(mapContains targetTables kv.1))).map Prod.fst
    TableDifferences := targetTables.filterMap (fun kv =>
      match mapLookup currentTables kv.1 with
      | some currentTable =>
        let diff := compareTableStructures currentTable kv.2
        if isTableDifferenceEmpty diff then none else some (kv.1, diff)
      | none => none) }

/-- The per-name entry computed by the table-difference loop of
`CompareSchemas` (helper for reasoning about the map it builds). -/
def tableDiffEntry (cur : Schema) (name : String) (tt : Table) :
    Option TableDifference :=
  match mapLookup (buildTableMap cur) name with
  | some ct =>
    if isTableDifferenceEmpty (compareTableStructures ct tt) then none
    else some (compareTableStructures ct tt)
  | none => none

/-- The per-name entry computed by the modified-column loop of
`compareTableStructures` (helper for reasoning about the map it builds). -/
def modifiedColumnEntry (ct : Table) (name : String) (tc : Column) :
    Option ColumnDiff :=
  match mapLookup (buildColumnMap ct.Columns) name with
  | some cc =>
    if areColumnsEqual cc tc then none else some (ColumnDiff.mk cc tc)
  | none => none

/-! ## Live database model (internal/database/database.go)

The live database is modelled as an explicit state: a list of tables, each
carrying its catalog columns (in ordinal order) and its rows.  A row maps a
column name to `some value` or `none` (SQL NULL); values are modelled by
their string rendering, which is how the engine consumes them (`sql.NullString`).
Queries run against a healthy connection: the only query failures modelled
are those provoked by the query text itself referencing a missing relation
or column. -/

/-- One row of a live table: column name to value (`none` = SQL NULL). -/
structure DBRow where
  cell : String → Option String

/-- One live table: name, catalog columns in ordinal order, rows. -/
structure DBTable where
  name : String
  columns : List Column
  rows : List DBRow

/-- The live database. -/
structure DBState where
  tables : List DBTable

/-- Catalog lookup of a table by name. -/
def DBState.lookupTable (s : DBState) (name : String) : Option DBTable :=
  s.tables.find? (fun t => t.name == name)

/-- `tableExists`: the `information_schema.tables` probe. -/
def tableExists (s : DBState) (tableName : String) : Bool :=
  (s.lookupTable tableName).isSome

/-- Column membership of a live table. -/
def DBTable.hasColumn (t : DBTable) (columnName : String) : Bool :=
  t.columns.any (fun c => c.ColumnName == columnName)

/-- `columnExists`: the `information_schema.columns` probe. -/
def columnExists (s : DBState) (tableName columnName : String) : Bool :=
  match s.lookupTable tableName with
  | some t => t.hasColumn columnName
  | none => false

/-- `getTableColumns`: ordered catalog columns; a missing table yields zero
rows from `information_schema` and hence an empty list, not an error. -/
def getTableColumns (s : DBState) (tableName : String) : List Column :=
  match s.lookupTable tableName with
  | some t => t.columns
  | none => []

/-- The `possiblePKs` candidate list of `getIdentifierColumn`. -/
def possiblePKs (tableName : String) : List String :=
  ["id", tableName ++ "_id", "uuid", "guid", "key"]

/-- `getIdentifierColumn`: first existing candidate, else the first catalog
column, else the literal `"1"`. -/
def getIdentifierColumn (s : DBState) (tableName : String) : String :=
  match (possiblePKs tableName).find? (fun pk => columnExists s tableName pk) with
  | some pk => pk
  | none =>
    match getTableColumns s tableName with
    | c :: _ => c.ColumnName
    | [] => "1"

/-! Validation-issue constructors (the record literals built in
`database.go`, with `fmt.Sprintf` rendered as string concatenation). -/

/-- The `null_constraint_violation` issue built by `findNullViolations`. -/
def nullViolationIssue (tableName : String) (column : Column)
    (identifier : String) : ValidationIssue :=
  { «Type» := "null_constraint_violation"
    Severity := "error"
    Table := tableName
    Column := column.ColumnName
    Message := "NULL value found in column '" ++ column.ColumnName ++
      "' which will be set to NOT NULL"
    Identifier := identifier
    Details := [("data_type", column.DataType)] }

/-- The `foreign_key_violation` issue built by `findForeignKeyViolations`. -/
def fkViolationIssue (fk : ForeignKey) (value identifier : String) :
    ValidationIssue :=
  { «Type» := "foreign_key_violation"
    Severity := "error"
    Table := fk.TableName
    Column := fk.ColumnName
    Message := "Foreign key violation: value '" ++ value ++
      "' references non-existent record in " ++ fk.ReferencedTable ++ "." ++
      fk.ReferencedColumn
    PrimaryKey := value
    Identifier := identifier
    Details := [("constraint_name", fk.ConstraintName),
      ("referenced_table", fk.ReferencedTable),
      ("referenced_column", fk.ReferencedColumn),
      ("foreign_key_value", value)] }

/-- The `missing_source_table` issue. -/
def missingSourceTableIssue (fk : ForeignKey) : ValidationIssue :=
  { «Type» := "missing_source_table"
    Severity := "error"
    Table := fk.TableName
    Column := fk.ColumnName
    Message := "Source table '" ++ fk.TableName ++
      "' does not exist in the database (required by foreign key constraint '" ++
      fk.ConstraintName ++ "')"
    Details := [("constraint_name", fk.ConstraintName),
      ("referenced_table", fk.ReferencedTable),
      ("referenced_column", fk.ReferencedColumn),
      ("error_type", "missing_source_table")] }

/-- The `missing_referenced_table` issue. -/
def missingReferencedTableIssue (fk : ForeignKey) : ValidationIssue :=
  { «Type» := "missing_referenced_table"
    Severity := "error"
    Table := fk.TableName
    Column := fk.ColumnName
    Message := "Referenced table '" ++ fk.ReferencedTable ++
      "' does not exist in the database (required by foreign key constraint '" ++
      fk.ConstraintName ++ "')"
    Details := [("constraint_name", fk.ConstraintName),
      ("referenced_table", fk.ReferencedTable),
      ("referenced_column", fk.ReferencedColumn),
      ("error_type", "missing_referenced_table")] }

/-- The `missing_source_column` issue. -/
def missingSourceColumnIssue (fk : ForeignKey) : ValidationIssue :=
  { «Type» := "missing_source_column"
    Severity := "error"
    Table := fk.TableName
    Column := fk.ColumnName
    Message := "Source column '" ++ fk.TableName ++ "." ++ fk.ColumnName ++
      "' does not exist in the database (required by foreign key constraint '" ++
      fk.ConstraintName ++ "')"
    Details := [("constraint_name", fk.ConstraintName),
      ("referenced_table", fk.ReferencedTable),
      ("referenced_column", fk.ReferencedColumn),
      ("error_type", "missing_source_column")] }

/-- The `missing_referenced_column` issue. -/
def missingReferencedColumnIssue (fk : ForeignKey) : ValidationIssue :=
  { «Type» := "missing_referenced_column"
    Severity := "error"
    Table := fk.TableName
    Column := fk.ColumnName
    Message := "Referenced column '" ++ fk.ReferencedTable ++ "." ++
      fk.ReferencedColumn ++
      "' does not exist in the database (required by foreign key constraint '" ++
      fk.ConstraintName ++ "')"
    Details := [("constraint_name", fk.ConstraintName),
      ("referenced_table", fk.ReferencedTable),
      ("referenced_column", fk.ReferencedColumn),
      ("error_type", "missing_referenced_column")] }

/-- The `foreign_key_validation_error` issue built by `ValidateForeignKeys`
when `findForeignKeyViolations` returns an error. -/
def fkValidationErrorIssue (fk : ForeignKey) (errMsg : String) : ValidationIssue :=
  { «Type» := "foreign_key_validation_error"
    Severity := "error"
    Table := fk.TableName
    Column := fk.ColumnName
    Message := "Failed to validate foreign key '" ++ fk.ConstraintName ++
      "': " ++ errMsg
    Details := [("constraint_name", fk.ConstraintName),
      ("referenced_table", fk.ReferencedTable),
      ("referenced_column", fk.ReferencedColumn),
      ("error_type", "validation_error")] }

/-- A row violates the anti-join of `fk` against the referenced table's rows
when its FK column is non-NULL and no referenced row matches it. -/
def isOrphanRow (refRows : List DBRow) (fk : ForeignKey) (r : DBRow) : Bool :=
  match r.cell fk.ColumnName with
  | some v => !(refRows.any (fun r2 => r2.cell fk.ReferencedColumn == some v))
  | none => false

/-- `findNullViolations`: `SELECT identifier FROM t WHERE col IS NULL LIMIT n`.
The query errors when the relation or a referenced column does not exist. -/
def findNullViolations (s : DBState) (tableName : String) (column : Column)
    (limit : Nat := 1000) : Except String (List ValidationIssue) :=
  let identifierCol := getIdentifierColumn s tableName
  match s.lookupTable tableName with
  | none => .error ("relation " ++ tableName ++ " does not exist")
  | some t =>
    if !(t.hasColumn identifierCol) then
      .error ("column " ++ identifierCol ++ " does not exist")
    else if !(t.hasColumn column.ColumnName) then
      .error ("column " ++ column.ColumnName ++ " does not exist")
    else
      .ok (((t.rows.filter
          (fun r => (r.cell column.ColumnName).isNone)).take limit).map
        (fun r => nullViolationIssue tableName column
          ((r.cell identifierCol).getD "")))

/-- `findForeignKeyViolations`: existence of source table, referenced table,
source column and referenced column is checked first, each absence yielding a
single `missing_*` issue (not an error); otherwise the anti-join query runs,
capped at 1000 rows. -/
def findForeignKeyViolations (s : DBState) (fk : ForeignKey) :
    Except String (List ValidationIssue) :=
  match s.lookupTable fk.TableName with
  | none => .ok [missingSourceTableIssue fk]
  | some t1 =>
    match s.lookupTable fk.ReferencedTable with
    | none => .ok [missingReferencedTableIssue fk]
    | some t2 =>
      if !(t1.hasColumn fk.ColumnName) then
        .ok [missingSourceColumnIssue fk]
      else if !(t2.hasColumn fk.ReferencedColumn) then
        .ok [missingReferencedColumnIssue fk]
      else
        let identifierCol := getIdentifierColumn s fk.TableName
        .ok (((t1.rows.filter (isOrphanRow t2.rows fk)).take 1000).map
          (fun r => fkViolationIssue fk ((r.cell fk.ColumnName).getD "")
            ((r.cell identifierCol).getD "")))

/-- The Go loops of `ValidateForeignKeys` patch a foreign key whose
`TableName` is empty with the owning table's name. -/
def substFK (owningTable : String) (fk : ForeignKey) : ForeignKey :=
  if fk.TableName == "" then { fk with TableName := owningTable } else fk

/-- The per-FK contribution of `ValidateForeignKeys`: violation issues on
success, a single `foreign_key_validation_error` issue on failure. -/
def fkIssuesOf (s : DBState) (fk : ForeignKey) : List ValidationIssue :=
  match findForeignKeyViolations s fk with
  | .ok violations => violations
  | .error e => fkValidationErrorIssue fk e :: []

/-- `ValidateForeignKeys` (multi-vendor version): iterates every foreign key
of every target table, substituting the owning table name when absent, and
accumulates issues, converting per-FK errors into issues and continuing. -/
def ValidateForeignKeys (s : DBState) (targetSchema : Schema) :
    List ValidationIssue :=
  targetSchema.foldl (fun issues table =>
    table.ForeignKeys.foldl (fun issues fk0 =>
      issues ++ fkIssuesOf s (substFK table.TableName fk0)) issues) []

/-! Remediation helpers (the `DELETE`/`UPDATE` statements).  Each returns the
affected-row count and the new database state, or the SQL error provoked by a
missing relation/column. -/

/-- Replace a table's contents in the state. -/
def DBState.updateTable (s : DBState) (name : String) (f : DBTable → DBTable) :
    DBState :=
  { tables := s.tables.map (fun t => if t.name == name then f t else t) }

/-- `removeForeignKeyViolatingRecords`: anti-join-scoped `DELETE`. -/
def removeForeignKeyViolatingRecords (s : DBState) (fk : ForeignKey) :
    Except String (Nat × DBState) :=
  match s.lookupTable fk.TableName with
  | none => .error ("relation " ++ fk.TableName ++ " does not exist")
  | some t1 =>
    match s.lookupTable fk.ReferencedTable with
    | none => .error ("relation " ++ fk.ReferencedTable ++ " does not exist")
    | some t2 =>
      if !(t1.hasColumn fk.ColumnName) then
        .error ("column " ++ fk.ColumnName ++ " does not exist")
      else if !(t2.hasColumn fk.ReferencedColumn) then
        .error ("column " ++ fk.ReferencedColumn ++ " does not exist")
      else
        let affected := (t1.rows.filter (isOrphanRow t2.rows fk)).length
        .ok (affected, s.updateTable fk.TableName (fun t =>
          { t with rows := t.rows.filter (fun r => !(isOrphanRow t2.rows fk r)) }))

/-- `setForeignKeyColumnsToNull`: anti-join-scoped `UPDATE ... SET col = NULL`. -/
def setForeignKeyColumnsToNull (s : DBState) (fk : ForeignKey) :
    Except String (Nat × DBState) :=
  match s.lookupTable fk.TableName with
  | none => .error ("relation " ++ fk.TableName ++ " does not exist")
  | some t1 =>
    match s.lookupTable fk.ReferencedTable with
    | none => .error ("relation " ++ fk.ReferencedTable ++ " does not exist")
    | some t2 =>
      if !(t1.hasColumn fk.ColumnName) then
        .error ("column " ++ fk.ColumnName ++ " does not exist")
      else if !(t2.hasColumn fk.ReferencedColumn) then
        .error ("column " ++ fk.ReferencedColumn ++ " does not exist")
      else
        let affected := (t1.rows.filter (isOrphanRow t2.rows fk)).length
        .ok (affected, s.updateTable fk.TableName (fun t =>
          { t with rows := t.rows.map (fun r =>
              if isOrphanRow t2.rows fk r then
                ⟨fun c => if c == fk.ColumnName then none else r.cell c⟩
              else r) }))

/-- `removeNullValueRecords`: `DELETE FROM t WHERE col IS NULL`. -/
def removeNullValueRecords (s : DBState) (tableName columnName : String) :
    Except String (Nat × DBState) :=
  match s.lookupTable tableName with
  | none => .error ("relation " ++ tableName ++ " does not exist")
  | some t =>
    if !(t.hasColumn columnName) then
      .error ("column " ++ columnName ++ " does not exist")
    else
      let affected := (t.rows.filter (fun r => (r.cell columnName).isNone)).length
      .ok (affected, s.updateTable tableName (fun t' =>
        { t' with rows := t'.rows.filter (fun r => !((r.cell columnName).isNone)) }))

/-- `setNullValuesToDefault`: `UPDATE t SET col = $1 WHERE col IS NULL`. -/
def setNullValuesToDefault (s : DBState) (tableName columnName defaultValue : String) :
    Except String (Nat × DBState) :=
  match s.lookupTable tableName with
  | none => .error ("relation " ++ tableName ++ " does not exist")
  | some t =>
    if !(t.hasColumn columnName) then
      .error ("column " ++ columnName ++ " does not exist")
    else
      let affected := (t.rows.filter (fun r => (r.cell columnName).isNone)).length
      .ok (affected, s.updateTable tableName (fun t' =>
        { t' with rows := t'.rows.map (fun r =>
            if (r.cell columnName).isNone then
              ⟨fun c => if c == columnName then some defaultValue else r.cell c⟩
            else r) }))

/-- The per-table fix-result map under construction, plus the evolving
database state. -/
abbrev FixAcc := List (String × FixResult) × DBState

/-- Ensure a (zero) entry exists for a table in the result map (the
`if _, exists := results[tableName]; !exists` guard). -/
def entryInit (m : List (String × FixResult)) (tableName : String) :
    List (String × FixResult) :=
  if mapContains m tableName then m else mapInsert m tableName {}

/-- Record an error message on a table's entry (other fields unchanged). -/
def recordError (m : List (String × FixResult)) (tableName e : String) :
    List (String × FixResult) :=
  mapInsert m tableName { (mapLookup m tableName).getD {} with Error := e }

/-- The dry-run tally of one sub-operation that found `n` violations:
both counters advance by `n`, `Success` is set, `Details` is overwritten. -/
def dryBump (m : List (String × FixResult)) (tableName : String) (n : Nat)
    (details : String) : List (String × FixResult) :=
  mapInsert m tableName
    { (mapLookup m tableName).getD {} with
        IssuesFound := ((mapLookup m tableName).getD {}).IssuesFound + n,
        RecordsAffected := ((mapLookup m tableName).getD {}).RecordsAffected + n,
        Success := true,
        Details := details }

/-- One iteration of the foreign-key loop of `FixForeignKeyViolations`. -/
def fixFKStep (action : String) (dryRun : Bool)
    (validationConfig : Option ValidationConfig) (owningTable : String)
    (acc : FixAcc) (fk0 : ForeignKey) : FixAcc :=
  let fk := substFK owningTable fk0
  let tableName := fk.TableName
  let results := entryInit acc.1 tableName
  match findForeignKeyViolations acc.2 fk with
  | .error e =>
    match validationConfig with
    | some cfg =>
      if cfg.IgnoreMissingTables then (results, acc.2)
      else
        (mapInsert results tableName
          { (mapLookup results tableName).getD {} with Error := e }, acc.2)
    | none =>
      (mapInsert results tableName
        { (mapLookup results tableName).getD {} with Error := e }, acc.2)
  | .ok violations =>
    let violationCount := violations.length
    if violationCount == 0 then (results, acc.2)
    else
      let result0 := (mapLookup results tableName).getD {}
      let result1 := { result0 with IssuesFound := result0.IssuesFound + violationCount }
      if !dryRun then
        let fixRes : Except String (Nat × DBState) :=
          if action == "remove" then removeForeignKeyViolatingRecords acc.2 fk
          else if action == "set-null" then setForeignKeyColumnsToNull acc.2 fk
          else .error ("unknown action: " ++ action)
        match fixRes with
        | .error e =>
          (mapInsert results tableName
            { result1 with Error := e, Success := false }, acc.2)
        | .ok (recordsAffected, s') =>
          (mapInsert results tableName
            { result1 with
                RecordsAffected := result1.RecordsAffected + recordsAffected,
                Success := true }, s')
      else
        (mapInsert results tableName
          { result1 with
              RecordsAffected := result1.RecordsAffected + violationCount,
              Success := true,
              Details := "Would " ++ action ++ " " ++ toString violationCount ++
                " records" }, acc.2)

/-- `FixForeignKeyViolations`: iterates every foreign key of every target
table; returns the per-table results and the resulting database state. -/
def FixForeignKeyViolations (s : DBState) (targetSchema : Schema)
    (action : String) (dryRun : Bool)
    (validationConfig : Option ValidationConfig) : FixAcc :=
  targetSchema.foldl (fun acc table =>
    table.ForeignKeys.foldl (fixFKStep action dryRun validationConfig table.TableName)
      acc) ([], s)

/-- One iteration of the column loop of `FixNullValueViolations`. -/
def fixNullStep (action defaultValue : String) (dryRun : Bool)
    (validationConfig : Option ValidationConfig) (tableName : String)
    (acc : FixAcc) (column : Column) : FixAcc :=
  if !(column.IsNotNull) then acc
  else
    let skip :=
      match validationConfig with
      | some cfg =>
        (cfg.IgnoreMissingTables && !(tableExists acc.2 tableName)) ||
        (cfg.IgnoreMissingColumns && !(columnExists acc.2 tableName column.ColumnName))
      | none => false
    if skip then acc
    else
      match findNullViolations acc.2 tableName column with
      | .error e =>
        (mapInsert acc.1 tableName
          { (mapLookup acc.1 tableName).getD {} with Error := e }, acc.2)
      | .ok violations =>
        let violationCount := violations.length
        if violationCount == 0 then acc
        else
          let result0 := (mapLookup acc.1 tableName).getD {}
          let result1 :=
            { result0 with IssuesFound := result0.IssuesFound + violationCount }
          if !dryRun then
            let fixRes : Except String (Nat × DBState) :=
              if action == "remove" then
                removeNullValueRecords acc.2 tableName column.ColumnName
              else if action == "set-default" then
                setNullValuesToDefault acc.2 tableName column.ColumnName defaultValue
              else .error ("unknown action: " ++ action)
            match fixRes with
            | .error e =>
              (mapInsert acc.1 tableName
                { result1 with Error := e, Success := false }, acc.2)
            | .ok (recordsAffected, s') =>
              (mapInsert acc.1 tableName
                { result1 with
                    RecordsAffected := result1.RecordsAffected + recordsAffected,
                    Success := true }, s')
          else
            (mapInsert acc.1 tableName
              { result1 with
                  RecordsAffected := result1.RecordsAffected + violationCount,
                  Success := true,
                  Details := "Would " ++ action ++ " " ++ toString violationCount ++
                    " records in column " ++ column.ColumnName }, acc.2)

/-- One iteration of the table loop of `FixNullValueViolations`: first
ensures the table has a (zero) entry in the result map, then walks its
columns. -/
def fixNullTableStep (action defaultValue : String) (dryRun : Bool)
    (validationConfig : Option ValidationConfig) (acc : FixAcc) (table : Table) :
    FixAcc :=
  table.Columns.foldl
    (fixNullStep action defaultValue dryRun validationConfig table.TableName)
    (entryInit acc.1 table.TableName, acc.2)

/-- `FixNullValueViolations`: iterates every table and every NOT NULL column
of the target schema; returns the per-table results and the resulting
database state. -/
def FixNullValueViolations (s : DBState) (targetSchema : Schema)
    (action defaultValue : String) (dryRun : Bool)
    (validationConfig : Option ValidationConfig) : FixAcc :=
  targetSchema.foldl (fixNullTableStep action defaultValue dryRun validationConfig)
    ([], s)

/-! ## Dry-run behaviour of the fixers (C1) -/

/-- The results-map update performed by one dry-run iteration of the
foreign-key fixer, as a function of the violation-finding outcome. -/
def fixFKStepDryResults (action : String) (cfg : Option ValidationConfig)
    (outcome : Except String (List ValidationIssue)) (tableName : String)
    (m : List (String × FixResult)) : List (String × FixResult) :=
  match outcome with
  | .error e =>
    match cfg with
    | some c =>
      if c.IgnoreMissingTables then entryInit m tableName
      else recordError (entryInit m tableName) tableName e
    | none => recordError (entryInit m tableName) tableName e
  | .ok violations =>
    if violations.length == 0 then entryInit m tableName
    else dryBump (entryInit m tableName) tableName violations.length
      ("Would " ++ action ++ " " ++ toString violations.length ++ " records")

/-- The per-column skip test of `FixNullValueViolations` when a validation
configuration with ignore flags is supplied. -/
def nullSkip (cfg : Option ValidationConfig) (s : DBState) (tableName : String)
    (column : Column) : Bool :=
  match cfg with
  | some c =>
    (c.IgnoreMissingTables && !(tableExists s tableName)) ||
    (c.IgnoreMissingColumns && !(columnExists s tableName column.ColumnName))
  | none => false

/-- The results-map update performed by one dry-run iteration of the
null-value fixer, as a function of the violation-finding outcome. -/
def fixNullStepDryResults (action : String) (column : Column)
    (outcome : Except String (List ValidationIssue)) (tableName : String)
    (m : List (String × FixResult)) : List (String × FixResult) :=
  match outcome with
  | .error e => recordError m tableName e
  | .ok violations =>
    if violations.length == 0 then m
    else dryBump m tableName violations.length
      ("Would " ++ action ++ " " ++ toString violations.length ++
        " records in column " ++ column.ColumnName)

/-- A pointwise invariant on every value of the under-construction result
map. -/
def ResultsInv (P : FixResult → Prop) (m : List (String × FixResult)) : Prop :=
  ∀ kv ∈ m, P kv.2

/-- Dry-run invariant: every accumulated result reports as many records
affected as issues found. -/
def DryInv (m : List (String × FixResult)) : Prop :=
  ResultsInv (fun r => r.RecordsAffected = r.IssuesFound) m

/-! ## Owning-table substitution for foreign keys (C9) -/

/-- The schema with every foreign key's `TableName` spelled out explicitly
(the form the claim compares against). -/
def explicitFKSchema (schema : Schema) : Schema :=
  schema.map (fun t =>
    { t with ForeignKeys := t.ForeignKeys.map (substFK t.TableName) })

/-! ## Dry-run per-table accumulation (C7)

The reference aggregation: the ordered list of sub-operation outcomes a
dry-run pass produces for one table, and the fold of those outcomes into the
four `FixResult` fields the fixers maintain. -/

/-- The violation-finding outcomes of the null-value fixer's sub-operations
for table `name`, in processing order (no configuration: nothing skipped). -/
def nullFindOutcomes (s : DBState) (schema : Schema) (name : String) :
    List (Except String (List ValidationIssue)) :=
  schema.flatMap (fun t =>
    if t.TableName == name then
      (t.Columns.filter (fun c => c.IsNotNull)).map
        (fun c => findNullViolations s name c)
    else [])

/-- The violation-finding outcomes of the foreign-key fixer's sub-operations
for table `name`, in processing order. -/
def fkFindOutcomes (s : DBState) (schema : Schema) (name : String) :
    List (Except String (List ValidationIssue)) :=
  schema.flatMap (fun t =>
    (t.ForeignKeys.map (substFK t.TableName)).filterMap (fun fk =>
      if fk.TableName == name then some (findForeignKeyViolations s fk)
      else none))

/-- Total violation count over the sub-operations whose search succeeded. -/
def sumOkLengths (l : List (Except String (List ValidationIssue))) : Nat :=
  (l.map (fun e => match e with | .ok v => v.length | .error _ => 0)).sum

/-- The most recent error message (empty if no sub-operation errored). -/
def lastErrorMsg (l : List (Except String (List ValidationIssue))) : String :=
  l.foldl (fun acc e => match e with | .error m => m | .ok _ => acc) ""

/-- Whether some sub-operation found at least one violation. -/
def anyOkNonempty (l : List (Except String (List ValidationIssue))) : Bool :=
  l.any (fun e => match e with | .ok v => !v.isEmpty | .error _ => false)

/-- The dry-run characterization of one table's accumulated `FixResult` in
terms of its sub-operation outcomes. -/
def DryRunChar (r : FixResult)
    (l : List (Except String (List ValidationIssue))) : Prop :=
  r.IssuesFound = sumOkLengths l ∧ r.RecordsAffected = sumOkLengths l ∧
  r.Error = lastErrorMsg l ∧ r.Success = anyOkNonempty l

/-- The entry for `name` in the result map either does not exist yet (then no
sub-operation for `name` has run) or satisfies the dry-run characterization
of the outcomes so far. -/
def EntryChar (m : List (String × FixResult)) (name : String)
    (done : List (Except String (List ValidationIssue))) : Prop :=
  (mapLookup m name = none ∧ done = []) ∨
  (∃ r, mapLookup m name = some r ∧ DryRunChar r done)

/-! ## Concrete fixtures -/

/-- Build a row from an association list of cell values. -/
def rowOf (l : List (String × Option String)) : DBRow :=
  ⟨fun c => ((l.find? (fun kv => kv.1 == c)).map Prod.snd).getD none⟩

/-- Live table for the C7 scenario: `t` has columns `a` (one NULL) and `c`,
but no column `b`. -/
def c7LiveTable : DBTable :=
  { name := "t"
    columns := [{ ColumnName := "a", DataType := "text" },
                { ColumnName := "c", DataType := "text" }]
    rows := [rowOf [("a", none), ("c", some "x")],
             rowOf [("a", some "1"), ("c", some "y")]] }

def c7State : DBState := ⟨[c7LiveTable]⟩

def c7fk : ForeignKey :=
  { ConstraintName := "fk_t_z", TableName := "", ColumnName := "a",
    ReferencedTable := "z", ReferencedColumn := "id" }

/-- Target schema for the C7 scenario: table `t` requires NOT NULL on `a`
(one violating row) and on `b` (column absent from the live table, so the
violation search errors), in that order; plus one foreign key referencing a
missing table. -/
def c7Schema : Schema :=
  [{ TableName := "t"
     Columns := [{ ColumnName := "a", DataType := "text", IsNullable := "NO" },
                 { ColumnName := "b", DataType := "text", IsNullable := "NO" }]
     ForeignKeys := [c7fk] }]

def c7Result : FixResult :=
  { IssuesFound := 1, RecordsAffected := 1, Success := true,
    Error := "column b does not exist",
    Details := "Would remove 1 records in column a" }

def c7FKResult : FixResult :=
  { IssuesFound := 1, RecordsAffected := 1, Success := true, Error := "",
    Details := "Would remove 1 records" }

/-- Live state for the C1 scenario: an orphaned `orders.customer_id` and a
NULL in a to-be NOT NULL column. -/
def c1State : DBState :=
  ⟨[{ name := "customers"
      columns := [{ ColumnName := "id", DataType := "integer" }]
      rows := [rowOf [("id", some "1")]] },
    { name := "orders"
      columns := [{ ColumnName := "id", DataType := "integer" },
                  { ColumnName := "customer_id", DataType := "integer" },
                  { ColumnName := "note", DataType := "text" }]
      rows := [rowOf [("id", some "1"), ("customer_id", some "99"),
                      ("note", none)]] }]⟩

def c1Schema : Schema :=
  [{ TableName := "orders"
     Columns := [{ ColumnName := "id", DataType := "integer",
                   IsNullable := "NO" },
                 { ColumnName := "customer_id", DataType := "integer" },
                 { ColumnName := "note", DataType := "text",
                   IsNullable := "NO" }]
     ForeignKeys := [{ ConstraintName := "orders_customer_id_fkey",
                       TableName := "", ColumnName := "customer_id",
                       ReferencedTable := "customers",
                       ReferencedColumn := "id" }] }]

def c1FKResult : FixResult :=
  { IssuesFound := 1, RecordsAffected := 1, Success := true,
    Details := "Would remove 1 records" }

def c1NullResult : FixResult :=
  { IssuesFound := 1, RecordsAffected := 1, Success := true,
    Details := "Would remove 1 records in column note" }

/-- Columns whose default values render as `0` versus `0.0`. -/
def c5CurCol : Column :=
  { ColumnName := "amount", DataType := "numeric", DefaultValue := some "0" }

def c5TgtCol : Column :=
  { ColumnName := "amount", DataType := "numeric", DefaultValue := some "0.0" }

def c5CurTable : Table := { TableName := "items", Columns := [c5CurCol] }

def c5TgtTable : Table := { TableName := "items", Columns := [c5TgtCol] }

/-- Live state for the C6 scenario: tables `a` (column `x`) and `b`
(column `y`). -/
def c6State : DBState :=
  ⟨[{ name := "a", columns := [{ ColumnName := "x", DataType := "text" }]
      rows := [] },
    { name := "b", columns := [{ ColumnName := "y", DataType := "text" }]
      rows := [] }]⟩

def c6fk1 : ForeignKey :=
  { ConstraintName := "f1", TableName := "zz", ColumnName := "x",
    ReferencedTable := "b", ReferencedColumn := "y" }

def c6fk2 : ForeignKey :=
  { ConstraintName := "f2", TableName := "a", ColumnName := "x",
    ReferencedTable := "zz", ReferencedColumn := "y" }

def c6fk3 : ForeignKey :=
  { ConstraintName := "f3", TableName := "a", ColumnName := "nope",
    ReferencedTable := "b", ReferencedColumn := "y" }

def c6fk4 : ForeignKey :=
  { ConstraintName := "f4", TableName := "a", ColumnName := "x",
    ReferencedTable := "b", ReferencedColumn := "nope" }

def c6Schema : Schema :=
  [{ TableName := "a", ForeignKeys := [c6fk1, c6fk2, c6fk3, c6fk4] }]

/-- Live state for the C8 scenario: `orders` has `id` in second ordinal
position, `plain` has no heuristic candidate, `ghost` does not exist. -/
def c8State : DBState :=
  ⟨[{ name := "orders"
      columns := [{ ColumnName := "name", DataType := "text" },
                  { ColumnName := "id", DataType := "integer" },
                  { ColumnName := "uuid", DataType := "text" }]
      rows := [] },
    { name := "plain"
      columns := [{ ColumnName := "x", DataType := "text" },
                  { ColumnName := "y", DataType := "text" }]
      rows := [] }]⟩

/-- Live state and schema for the C10 scenario: table `t` has a NOT NULL
column with no violating rows; schema table `u` has no NOT NULL columns. -/
def c10State : DBState :=
  ⟨[{ name := "t"
      columns := [{ ColumnName := "a", DataType := "text" }]
      rows := [rowOf [("a", some "v")]] }]⟩

def c10TableT : Table :=
  { TableName := "t"
    Columns := [{ ColumnName := "a", DataType := "text", IsNullable := "NO" }] }

def c10ColB : Column :=
  { ColumnName := "b", DataType := "text", IsNullable := "YES" }

def c10TableU : Table := { TableName := "u", Columns := [c10ColB] }

def c10Schema : Schema := [c10TableT, c10TableU]

/-! ## Theorems -/

theorem mapLookup_insert_self {α : Type} (m : List (String × α)) (k : String) (v : α) :
    mapLookup (mapInsert m k v) k = some v := by
  induction m with
  | nil => simp [mapInsert, mapLookup]
  | cons hd tl ih =>
    obtain ⟨k', v'⟩ := hd
    by_cases h : k' = k
    · simp [mapInsert, mapLookup, h]
    · simp only [mapInsert, mapLookup, beq_iff_eq, if_neg h]
      exact ih

theorem mapLookup_insert_ne {α : Type} (m : List (String × α)) (k k' : String) (v : α)
    (h : k' ≠ k) : mapLookup (mapInsert m k v) k' = mapLookup m k' := by
  induction m with
  | nil => simp [mapInsert, mapLookup, Ne.symm h]
  | cons hd tl ih =>
    obtain ⟨k₀, v₀⟩ := hd
    by_cases h₀ : k₀ = k
    · subst h₀
      simp [mapInsert, mapLookup, Ne.symm h]
    · by_cases h₁ : k₀ = k'
      · simp [mapInsert, mapLookup, h₀, h₁, h]
      · simp only [mapInsert, mapLookup, beq_iff_eq, if_neg h₀, if_neg h₁]
        exact ih

theorem mapContains_insert {α : Type} (m : List (String × α)) (k k' : String) (v : α) :
    mapContains (mapInsert m k v) k' = (k' == k || mapContains m k') := by
  by_cases h : k' = k
  · subst h
    simp [mapContains, mapLookup_insert_self]
  · simp [mapContains, mapLookup_insert_ne m k k' v h, h]

theorem mem_mapInsert {α : Type} {m : List (String × α)} {k : String} {v : α}
    {kv : String × α} (h : kv ∈ mapInsert m k v) : kv = (k, v) ∨ kv ∈ m := by
  induction m with
  | nil => simpa [mapInsert] using h
  | cons hd tl ih =>
    obtain ⟨k₀, v₀⟩ := hd
    by_cases h₀ : k₀ = k
    · simp only [mapInsert, beq_iff_eq, if_pos h₀, List.mem_cons] at h
      rcases h with h | h
      · exact Or.inl h
      · exact Or.inr (List.mem_cons_of_mem _ h)
    · simp only [mapInsert, beq_iff_eq, if_neg h₀, List.mem_cons] at h
      rcases h with h | h
      · exact Or.inr (by simp [h])
      · rcases ih h with h' | h'
        · exact Or.inl h'
        · exact Or.inr (List.mem_cons_of_mem _ h')

theorem keys_mapInsert_subset {α : Type} {m : List (String × α)} {k : String} {v : α}
    {k' : String} (h : k' ∈ (mapInsert m k v).map Prod.fst) :
    k' = k ∨ k' ∈ m.map Prod.fst := by
  rcases List.mem_map.1 h with ⟨kv, hkv, rfl⟩
  rcases mem_mapInsert hkv with h' | h'
  · left; rw [h']
  · right; exact List.mem_map_of_mem Prod.fst h'

theorem keysNodup_mapInsert {α : Type} {m : List (String × α)} (k : String) (v : α)
    (h : KeysNodup m) : KeysNodup (mapInsert m k v) := by
  induction m with
  | nil => simp [mapInsert, KeysNodup]
  | cons hd tl ih =>
    obtain ⟨k₀, v₀⟩ := hd
    simp only [KeysNodup, List.map_cons, List.nodup_cons] at h
    by_cases h₀ : k₀ = k
    · subst h₀
      simpa [mapInsert, KeysNodup] using h
    · have htl := ih h.2
      simp only [mapInsert, beq_iff_eq, if_neg h₀, KeysNodup, List.map_cons,
        List.nodup_cons]
      refine ⟨fun hc => ?_, htl⟩
      rcases keys_mapInsert_subset hc with h' | h'
      · exact h₀ h'
      · exact h.1 h'

theorem mapLookup_eq_some_of_mem {α : Type} {m : List (String × α)}
    (hm : KeysNodup m) {kv : String × α} (h : kv ∈ m) :
    mapLookup m kv.1 = some kv.2 := by
  induction m with
  | nil => simp at h
  | cons hd tl ih =>
    obtain ⟨k₀, v₀⟩ := hd
    simp only [KeysNodup, List.map_cons, List.nodup_cons] at hm
    rcases List.mem_cons.1 h with h' | h'
    · rw [h']
      simp [mapLookup]
    · have hk : k₀ ≠ kv.1 := by
        intro hc
        exact hm.1 (hc ▸ List.mem_map_of_mem Prod.fst h')
      simp only [mapLookup, beq_iff_eq, if_neg hk]
      exact ih hm.2 h'

theorem mem_of_mapLookup_eq_some {α : Type} {m : List (String × α)} {k : String}
    {v : α} (h : mapLookup m k = some v) : (k, v) ∈ m := by
  induction m with
  | nil => simp [mapLookup] at h
  | cons hd tl ih =>
    obtain ⟨k₀, v₀⟩ := hd
    by_cases h₀ : k₀ = k
    · subst h₀
      simp only [mapLookup, beq_self_eq_true, if_true, Option.some.injEq] at h
      subst h
      exact List.mem_cons_self _ _
    · simp only [mapLookup, beq_iff_eq, if_neg h₀] at h
      exact List.mem_cons_of_mem _ (ih h)

theorem mapContains_of_mem {α : Type} {m : List (String × α)} {kv : String × α}
    (h : kv ∈ m) : mapContains m kv.1 = true := by
  induction m with
  | nil => simp at h
  | cons hd tl ih =>
    obtain ⟨k₀, v₀⟩ := hd
    rcases List.mem_cons.1 h with h' | h'
    · rw [h']
      simp [mapContains, mapLookup]
    · by_cases h₀ : k₀ = kv.1
      · simp [mapContains, mapLookup, h₀]
      · have := ih h'
        simpa [mapContains, mapLookup, h₀] using this

theorem exists_mem_of_mapContains {α : Type} {m : List (String × α)} {k : String}
    (h : mapContains m k = true) : ∃ v, (k, v) ∈ m := by
  unfold mapContains at h
  cases hl : mapLookup m k with
  | none => rw [hl] at h; simp at h
  | some v => exact ⟨v, mem_of_mapLookup_eq_some hl⟩

/-! Generic facts about `buildMap`. -/

theorem buildMap_foldl_inv {α : Type} (key : α → String) (l : List α)
    (P : List (String × α) → Prop)
    (hstep : ∀ m a, a ∈ l → P m → P (mapInsert m (key a) a)) :
    ∀ m, P m → P (l.foldl (fun m a => mapInsert m (key a) a) m) := by
  induction l with
  | nil => intro m hm; simpa using hm
  | cons hd tl ih =>
    intro m hm
    simp only [List.foldl_cons]
    exact ih (fun m a ha => hstep m a (List.mem_cons_of_mem _ ha))
      (mapInsert m (key hd) hd) (hstep m hd (List.mem_cons_self hd tl) hm)

theorem keysNodup_buildMap {α : Type} (key : α → String) (l : List α) :
    KeysNodup (buildMap key l) := by
  unfold buildMap
  exact buildMap_foldl_inv key l KeysNodup
    (fun m a _ hm => keysNodup_mapInsert (key a) a hm) [] (by simp [KeysNodup])

theorem mem_buildMap {α : Type} (key : α → String) (l : List α) {kv : String × α}
    (h : kv ∈ buildMap key l) : key kv.2 = kv.1 ∧ kv.2 ∈ l := by
  unfold buildMap at h
  refine buildMap_foldl_inv key l
    (fun m => ∀ kv ∈ m, key kv.2 = kv.1 ∧ kv.2 ∈ l) ?_ [] (by simp) kv h
  intro m a ha hm kv' hkv'
  rcases mem_mapInsert hkv' with h' | h'
  · rw [h']
    exact ⟨rfl, ha⟩
  · exact hm kv' h'

theorem mapContains_buildMap {α : Type} (key : α → String) (l : List α) (k : String) :
    mapContains (buildMap key l) k = l.any (fun a => key a == k) := by
  unfold buildMap
  suffices h : ∀ (l' : List α) (m : List (String × α)),
      mapContains (l'.foldl (fun m a => mapInsert m (key a) a) m) k =
        (mapContains m k || l'.any (fun a => key a == k)) by
    simpa [mapContains, mapLookup] using h l []
  intro l'
  induction l' with
  | nil => intro m; simp
  | cons hd tl ih =>
    intro m
    simp only [List.foldl_cons, ih, mapContains_insert, List.any_cons]
    by_cases h : key hd = k
    · simp [h]
    · have h1 : (k == key hd) = false := by simp [Ne.symm h]
      have h2 : (key hd == k) = false := by simp [h]
      simp [h1, h2]

/-! ## Differ lemmas -/

theorem areColumnsEqual_self (c : Column) : areColumnsEqual c c = true := by
  simp [areColumnsEqual]

theorem areColumnsEqual_eq_true_iff (c d : Column) :
    areColumnsEqual c d = true ↔
      (c.DataType = d.DataType ∧ c.IsNullable = d.IsNullable ∧
        goFormatV c.DefaultValue = goFormatV d.DefaultValue) := by
  simp [areColumnsEqual, Bool.and_eq_true, and_assoc]

theorem filter_not_contains_self_eq_nil {α : Type} (m : List (String × α)) :
    m.filter (fun kv => !(mapContains m kv.1)) = [] := by
  rw [List.filter_eq_nil_iff]
  intro kv hkv
  simp [mapContains_of_mem hkv]

theorem keysNodup_buildColumnMap (cols : List Column) :
    KeysNodup (buildColumnMap cols) :=
  keysNodup_buildMap _ _

theorem keysNodup_buildTableMap (s : Schema) : KeysNodup (buildTableMap s) :=
  keysNodup_buildMap _ _

theorem keysNodup_buildFKMap (fks : List ForeignKey) : KeysNodup (buildFKMap fks) :=
  keysNodup_buildMap _ _

theorem mem_buildFKMap {fks : List ForeignKey} {kv : String × ForeignKey}
    (h : kv ∈ buildFKMap fks) : fkKey kv.2 = kv.1 ∧ kv.2 ∈ fks :=
  mem_buildMap fkKey fks h

theorem mapContains_buildFKMap (fks : List ForeignKey) (k : String) :
    mapContains (buildFKMap fks) k = fks.any (fun a => fkKey a == k) :=
  mapContains_buildMap fkKey fks k

theorem compareForeignKeys_self (fks : List ForeignKey) :
    compareForeignKeys fks fks = {} := by
  simp only [compareForeignKeys, filter_not_contains_self_eq_nil, List.map_nil]

theorem compareTableStructures_self (t : Table) :
    compareTableStructures t t = {} := by
  simp only [compareTableStructures, filter_not_contains_self_eq_nil, List.map_nil,
    compareForeignKeys_self]
  have hmod : (buildColumnMap t.Columns).filterMap (fun kv =>
      match mapLookup (buildColumnMap t.Columns) kv.1 with
      | some currentColumn =>
        if areColumnsEqual currentColumn kv.2 then none
        else some (kv.1, ColumnDiff.mk currentColumn kv.2)
      | none => none) = [] := by
    rw [List.filterMap_eq_nil_iff]
    intro kv hkv
    rw [mapLookup_eq_some_of_mem (keysNodup_buildColumnMap t.Columns) hkv]
    simp [areColumnsEqual_self]
  rw [hmod]

theorem isTableDifferenceEmpty_default :
    isTableDifferenceEmpty ({} : TableDifference) = true := by
  rfl

/-- C2: comparing a schema with itself yields empty missing tables, empty
extra tables, and an empty table-difference map. -/
theorem claim_C2_compare_self (s : Schema) :
    CompareSchemas s s =
      { MissingTables := [], ExtraTables := [], TableDifferences := [] } := by
  simp only [CompareSchemas, filter_not_contains_self_eq_nil, List.map_nil]
  have hdiff : (buildTableMap s).filterMap (fun kv =>
      match mapLookup (buildTableMap s) kv.1 with
      | some currentTable =>
        let diff := compareTableStructures currentTable kv.2
        if isTableDifferenceEmpty diff then none else some (kv.1, diff)
      | none => none) = [] := by
    rw [List.filterMap_eq_nil_iff]
    intro kv hkv
    rw [mapLookup_eq_some_of_mem (keysNodup_buildTableMap s) hkv]
    simp [compareTableStructures_self, isTableDifferenceEmpty_default]
  rw [hdiff]

/-! Lookup into the Go-map images produced by `filterMap` constructions. -/

theorem mapLookup_eq_none_of_not_mem_keys {α : Type} {m : List (String × α)}
    {k : String} (h : k ∉ m.map Prod.fst) : mapLookup m k = none := by
  induction m with
  | nil => rfl
  | cons hd tl ih =>
    obtain ⟨k₀, v₀⟩ := hd
    simp only [List.map_cons, List.mem_cons, not_or] at h
    simp only [mapLookup, beq_iff_eq]
    rw [if_neg (fun hc => h.1 hc.symm)]
    exact ih h.2

theorem mapLookup_filterMap {α β : Type} (G : String → α → Option β)
    (m : List (String × α)) (hm : KeysNodup m) (k : String) :
    mapLookup (m.filterMap (fun kv => (G kv.1 kv.2).map (fun b => (kv.1, b)))) k
      = (mapLookup m k).bind (fun v => G k v) := by
  induction m with
  | nil => rfl
  | cons hd tl ih =>
    obtain ⟨k₀, v₀⟩ := hd
    simp only [KeysNodup, List.map_cons, List.nodup_cons] at hm
    have hkeys : ∀ kv' ∈ tl.filterMap
        (fun kv => (G kv.1 kv.2).map (fun b => (kv.1, b))), kv'.1 ∈ tl.map Prod.fst := by
      intro kv' hkv'
      rcases List.mem_filterMap.1 hkv' with ⟨kv, hkv, heq⟩
      rcases Option.map_eq_some'.1 heq with ⟨b, _, rfl⟩
      exact List.mem_map_of_mem Prod.fst hkv
    by_cases hk : k₀ = k
    · subst hk
      cases hG : G k₀ v₀ with
      | none =>
        simp only [List.filterMap_cons, hG, Option.map_none', mapLookup,
          beq_self_eq_true, if_true, Option.some_bind]
        apply mapLookup_eq_none_of_not_mem_keys
        intro hc
        rcases List.mem_map.1 hc with ⟨kv', hkv', rfl⟩
        exact hm.1 (hkeys kv' hkv')
      | some b =>
        simp [List.filterMap_cons, hG, mapLookup]
    · cases hG : G k₀ v₀ with
      | none =>
        simp only [List.filterMap_cons, hG, Option.map_none', mapLookup,
          beq_iff_eq, if_neg hk]
        exact ih hm.2
      | some b =>
        simp only [List.filterMap_cons, hG, Option.map_some', mapLookup,
          beq_iff_eq, if_neg hk]
        exact ih hm.2

/-- C3: the `TableDifferences` map of `CompareSchemas` has an entry for a
table name exactly when the table is present in both schemas' table maps and
its computed difference is non-empty; the entry is that difference, and a
difference with all sub-collections empty is omitted. -/
theorem claim_C3_table_difference_membership (cur tgt : Schema) (name : String) :
    mapLookup (CompareSchemas cur tgt).TableDifferences name =
      (match mapLookup (buildTableMap tgt) name with
       | none => none
       | some tt =>
         match mapLookup (buildTableMap cur) name with
         | none => none
         | some ct =>
           if isTableDifferenceEmpty (compareTableStructures ct tt) then none
           else some (compareTableStructures ct tt)) := by
  have hfun : (fun kv : String × Table =>
      match mapLookup (buildTableMap cur) kv.1 with
      | some currentTable =>
        let diff := compareTableStructures currentTable kv.2
        if isTableDifferenceEmpty diff then none else some (kv.1, diff)
      | none => none) =
      (fun kv : String × Table =>
        (tableDiffEntry cur kv.1 kv.2).map (fun b => (kv.1, b))) := by
    funext kv
    unfold tableDiffEntry
    cases mapLookup (buildTableMap cur) kv.1 with
    | none => rfl
    | some ct =>
      by_cases hemp : isTableDifferenceEmpty (compareTableStructures ct kv.2)
      · simp [hemp]
      · simp [hemp]
  show mapLookup ((buildTableMap tgt).filterMap _) name = _
  rw [hfun, mapLookup_filterMap (tableDiffEntry cur) _ (keysNodup_buildTableMap tgt)]
  cases mapLookup (buildTableMap tgt) name with
  | none => rfl
  | some tt =>
    simp only [Option.some_bind]
    unfold tableDiffEntry
    cases mapLookup (buildTableMap cur) name with
    | none => rfl
    | some ct => rfl

/-- C4: foreign keys are identified by the composite key
`table.column->refTable.refColumn`: the keys of `Missing` are exactly the
target-side keys absent from the current side, the keys of `Extra` exactly
the current-side keys absent from the target side, and each key appears at
most once; constraint names and update/delete rules play no role. -/
theorem fk_diff_side_mem (as bs : List ForeignKey) (k : String) :
    k ∈ (((buildFKMap bs).filter
        (fun kv => !(mapContains (buildFKMap as) kv.1))).map Prod.snd).map fkKey ↔
      k ∈ bs.map fkKey ∧ k ∉ as.map fkKey := by
  constructor
  · intro h
    rcases List.mem_map.1 h with ⟨fk, hfk, rfl⟩
    rcases List.mem_map.1 hfk with ⟨kv, hkv, rfl⟩
    have hmem := List.mem_filter.1 hkv
    have hb := mem_buildFKMap hmem.1
    have hc : mapContains (buildFKMap as) kv.1 = false := by
      have h2 := hmem.2
      simp only [Bool.not_eq_true'] at h2
      exact h2
    rw [mapContains_buildFKMap] at hc
    refine ⟨List.mem_map_of_mem fkKey hb.2, ?_⟩
    intro hcon
    rcases List.mem_map.1 hcon with ⟨fk', hfk', hkey⟩
    have hany : as.any (fun a => fkKey a == kv.1) = true :=
      List.any_eq_true.2 ⟨fk', hfk', by rw [hb.1] at hkey; simp [hkey]⟩
    rw [hany] at hc
    cases hc
  · rintro ⟨hin, hout⟩
    rcases List.mem_map.1 hin with ⟨fk, hfk, rfl⟩
    have hcont : mapContains (buildFKMap bs) (fkKey fk) = true := by
      rw [mapContains_buildFKMap]
      exact List.any_eq_true.2 ⟨fk, hfk, by simp⟩
    rcases exists_mem_of_mapContains hcont with ⟨v, hv⟩
    have hb := mem_buildFKMap hv
    have hnc : mapContains (buildFKMap as) (fkKey fk) = false := by
      rw [mapContains_buildFKMap]
      by_contra hcon
      have hany : as.any (fun a => fkKey a == fkKey fk) = true := by
        cases h' : as.any (fun a => fkKey a == fkKey fk)
        · exact absurd h' hcon
        · rfl
      rcases List.any_eq_true.1 hany with ⟨a, ha, hak⟩
      exact hout (List.mem_map.2 ⟨a, ha, by simpa using hak⟩)
    have hfilter : (fkKey fk, v) ∈ (buildFKMap bs).filter
        (fun kv => !(mapContains (buildFKMap as) kv.1)) :=
      List.mem_filter.2 ⟨hv, by simp [hnc]⟩
    have hvmem : v ∈ ((buildFKMap bs).filter
        (fun kv => !(mapContains (buildFKMap as) kv.1))).map Prod.snd :=
      List.mem_map.2 ⟨(fkKey fk, v), hfilter, rfl⟩
    have hkv : fkKey v = fkKey fk := hb.1
    rw [← hkv]
    exact List.mem_map_of_mem fkKey hvmem

theorem fk_diff_side_nodup (as bs : List ForeignKey) :
    ((((buildFKMap bs).filter
      (fun kv => !(mapContains (buildFKMap as) kv.1))).map Prod.snd).map fkKey).Nodup := by
  have hmapeq : (((buildFKMap bs).filter
      (fun kv => !(mapContains (buildFKMap as) kv.1))).map Prod.snd).map fkKey =
      ((buildFKMap bs).filter
        (fun kv => !(mapContains (buildFKMap as) kv.1))).map Prod.fst := by
    rw [List.map_map]
    apply List.map_congr_left
    intro kv hkv
    exact (mem_buildFKMap (List.mem_filter.1 hkv).1).1
  rw [hmapeq]
  have hsub : List.Sublist
      (((buildFKMap bs).filter
        (fun kv => !(mapContains (buildFKMap as) kv.1))).map Prod.fst)
      ((buildFKMap bs).map Prod.fst) :=
    List.Sublist.map Prod.fst (List.filter_sublist _)
  exact (keysNodup_buildFKMap bs).sublist hsub

/-- C4: foreign keys are identified by the composite key
`table.column->refTable.refColumn`: the keys of `Missing` are exactly the
target-side keys absent from the current side, the keys of `Extra` exactly
the current-side keys absent from the target side, and each key appears at
most once; constraint names and update/delete rules play no role. -/
theorem claim_C4_fk_identity_key (currentFKs targetFKs : List ForeignKey)
    (k : String) :
    (k ∈ ((compareForeignKeys currentFKs targetFKs).Missing.map fkKey) ↔
      k ∈ targetFKs.map fkKey ∧ k ∉ currentFKs.map fkKey) ∧
    (k ∈ ((compareForeignKeys currentFKs targetFKs).Extra.map fkKey) ↔
      k ∈ currentFKs.map fkKey ∧ k ∉ targetFKs.map fkKey) ∧
    ((compareForeignKeys currentFKs targetFKs).Missing.map fkKey).Nodup ∧
    ((compareForeignKeys currentFKs targetFKs).Extra.map fkKey).Nodup := by
  simp only [compareForeignKeys]
  exact ⟨fk_diff_side_mem currentFKs targetFKs k,
    fk_diff_side_mem targetFKs currentFKs k,
    fk_diff_side_nodup currentFKs targetFKs,
    fk_diff_side_nodup targetFKs currentFKs⟩

/-- C5: for a column name present in both tables, `ModifiedColumns` holds the
pair of current and target columns exactly when the two differ in data type,
nullability, or the string form of the default value (lexical comparison);
columns equal on all three produce no entry. -/
theorem claim_C5_modified_columns (ct tt : Table) (name : String) (cc tc : Column)
    (hc : mapLookup (buildColumnMap ct.Columns) name = some cc)
    (ht : mapLookup (buildColumnMap tt.Columns) name = some tc) :
    mapLookup (compareTableStructures ct tt).ModifiedColumns name =
      (if cc.DataType = tc.DataType ∧ cc.IsNullable = tc.IsNullable ∧
          goFormatV cc.DefaultValue = goFormatV tc.DefaultValue
       then none
       else some (ColumnDiff.mk cc tc)) := by
  have hfun : (fun kv : String × Column =>
      match mapLookup (buildColumnMap ct.Columns) kv.1 with
      | some currentColumn =>
        if areColumnsEqual currentColumn kv.2 then none
        else some (kv.1, ColumnDiff.mk currentColumn kv.2)
      | none => none) =
      (fun kv : String × Column =>
        (modifiedColumnEntry ct kv.1 kv.2).map (fun b => (kv.1, b))) := by
    funext kv
    unfold modifiedColumnEntry
    cases mapLookup (buildColumnMap ct.Columns) kv.1 with
    | none => rfl
    | some c0 =>
      by_cases heq : areColumnsEqual c0 kv.2
      · simp [heq]
      · simp [heq]
  show mapLookup ((buildColumnMap tt.Columns).filterMap _) name = _
  rw [hfun, mapLookup_filterMap (modifiedColumnEntry ct) _
    (keysNodup_buildColumnMap tt.Columns), ht]
  simp only [Option.some_bind]
  have hent : modifiedColumnEntry ct name tc =
      if areColumnsEqual cc tc then none else some (ColumnDiff.mk cc tc) := by
    unfold modifiedColumnEntry
    rw [hc]
  rw [hent]
  by_cases heq : areColumnsEqual cc tc
  · rw [if_pos heq, if_pos ((areColumnsEqual_eq_true_iff cc tc).1 heq)]
  · rw [if_neg heq, if_neg (fun hp => heq ((areColumnsEqual_eq_true_iff cc tc).2 hp))]

/-! ## Identifier-column heuristic (C8) -/

theorem find?_append_of_forall_false {p : String → Bool} {pre : List String}
    (hpre : ∀ q ∈ pre, p q = false) (rest : List String) :
    List.find? p (pre ++ rest) = List.find? p rest := by
  induction pre with
  | nil => rfl
  | cons hd tl ih =>
    have hhd : p hd = false := hpre hd (List.mem_cons_self hd tl)
    simp only [List.cons_append, List.find?_cons, hhd]
    exact ih (fun q hq => hpre q (List.mem_cons_of_mem hd hq))

/-- C8: `getIdentifierColumn` returns the first name of the precedence list
`id`, `<table>_id`, `uuid`, `guid`, `key` that exists as a column of the
table; if none exists, the first catalog column in ordinal order; if the
catalog yields no columns, the literal `"1"`. -/
theorem claim_C8_identifier_column (s : DBState) (t : String) :
    (∀ pre pk post, possiblePKs t = pre ++ pk :: post →
      (∀ q ∈ pre, columnExists s t q = false) →
      columnExists s t pk = true →
      getIdentifierColumn s t = pk) ∧
    ((∀ q ∈ possiblePKs t, columnExists s t q = false) →
      ∀ c cs, getTableColumns s t = c :: cs →
      getIdentifierColumn s t = c.ColumnName) ∧
    ((∀ q ∈ possiblePKs t, columnExists s t q = false) →
      getTableColumns s t = [] →
      getIdentifierColumn s t = "1") := by
  refine ⟨?_, ?_, ?_⟩
  · intro pre pk post hsplit hpre hpk
    unfold getIdentifierColumn
    rw [hsplit, find?_append_of_forall_false hpre, List.find?_cons, hpk]
  · intro hnone c cs hcols
    unfold getIdentifierColumn
    rw [List.find?_eq_none.2 (fun q hq hp => by rw [hnone q hq] at hp; cases hp), hcols]
  · intro hnone hcols
    unfold getIdentifierColumn
    rw [List.find?_eq_none.2 (fun q hq hp => by rw [hnone q hq] at hp; cases hp), hcols]

/-! ## Foreign-key validation (C6) -/

theorem foldl_append_bind {α β : Type} (f : α → List β) :
    ∀ (l : List α) (init : List β),
      l.foldl (fun acc a => acc ++ f a) init = init ++ l.flatMap f := by
  intro l
  induction l with
  | nil => intro init; simp
  | cons hd tl ih =>
    intro init
    simp only [List.foldl_cons, List.flatMap_cons, ih, List.append_assoc]

theorem tableExists_eq_false_iff (s : DBState) (n : String) :
    tableExists s n = false ↔ s.lookupTable n = none := by
  unfold tableExists
  cases s.lookupTable n <;> simp

/-- C6: each absent object among source table, referenced table, source
column, referenced column yields exactly one issue of the corresponding
`missing_*` kind (an `.ok` result, not an error), and `ValidateForeignKeys`
is the independent concatenation of every foreign key's contribution, so it
continues past such issues. -/
theorem claim_C6_missing_objects (s : DBState) (fk : ForeignKey)
    (schema : Schema) :
    (tableExists s fk.TableName = false →
      findForeignKeyViolations s fk = .ok [missingSourceTableIssue fk]) ∧
    (tableExists s fk.TableName = true →
      tableExists s fk.ReferencedTable = false →
      findForeignKeyViolations s fk = .ok [missingReferencedTableIssue fk]) ∧
    (tableExists s fk.TableName = true →
      tableExists s fk.ReferencedTable = true →
      columnExists s fk.TableName fk.ColumnName = false →
      findForeignKeyViolations s fk = .ok [missingSourceColumnIssue fk]) ∧
    (tableExists s fk.TableName = true →
      tableExists s fk.ReferencedTable = true →
      columnExists s fk.TableName fk.ColumnName = true →
      columnExists s fk.ReferencedTable fk.ReferencedColumn = false →
      findForeignKeyViolations s fk = .ok [missingReferencedColumnIssue fk]) ∧
    (ValidateForeignKeys s schema =
      schema.flatMap (fun t => t.ForeignKeys.flatMap
        (fun fk0 => fkIssuesOf s (substFK t.TableName fk0)))) := by
  refine ⟨?_, ?_, ?_, ?_, ?_⟩
  · intro h1
    rw [tableExists_eq_false_iff] at h1
    unfold findForeignKeyViolations
    rw [h1]
  · intro h1 h2
    rw [tableExists_eq_false_iff] at h2
    unfold tableExists at h1
    unfold findForeignKeyViolations
    cases hl : s.lookupTable fk.TableName with
    | none => rw [hl] at h1; cases h1
    | some t1 => rw [h2]
  · intro h1 h2 h3
    unfold tableExists at h1 h2
    unfold findForeignKeyViolations
    cases hl1 : s.lookupTable fk.TableName with
    | none => rw [hl1] at h1; cases h1
    | some t1 =>
      cases hl2 : s.lookupTable fk.ReferencedTable with
      | none => rw [hl2] at h2; cases h2
      | some t2 =>
        unfold columnExists at h3
        rw [hl1] at h3
        have h3' : t1.hasColumn fk.ColumnName = false := h3
        simp [h3']
  · intro h1 h2 h3 h4
    unfold tableExists at h1 h2
    unfold findForeignKeyViolations
    cases hl1 : s.lookupTable fk.TableName with
    | none => rw [hl1] at h1; cases h1
    | some t1 =>
      cases hl2 : s.lookupTable fk.ReferencedTable with
      | none => rw [hl2] at h2; cases h2
      | some t2 =>
        unfold columnExists at h3 h4
        rw [hl1] at h3
        rw [hl2] at h4
        have h3' : t1.hasColumn fk.ColumnName = true := h3
        have h4' : t2.hasColumn fk.ReferencedColumn = false := h4
        simp [h3', h4']
  · unfold ValidateForeignKeys
    have hstep : (fun (issues : List ValidationIssue) (table : Table) =>
        table.ForeignKeys.foldl (fun issues fk0 =>
          issues ++ fkIssuesOf s (substFK table.TableName fk0)) issues) =
        (fun issues table =>
          issues ++ table.ForeignKeys.flatMap
            (fun fk0 => fkIssuesOf s (substFK table.TableName fk0))) := by
      funext issues table
      exact foldl_append_bind _ table.ForeignKeys issues
    rw [hstep, foldl_append_bind]
    simp

theorem fixFKStep_dry_eq (action : String) (cfg : Option ValidationConfig)
    (tname : String) (acc : FixAcc) (fk0 : ForeignKey) :
    fixFKStep action true cfg tname acc fk0 =
      (fixFKStepDryResults action cfg
        (findForeignKeyViolations acc.2 (substFK tname fk0))
        (substFK tname fk0).TableName acc.1, acc.2) := by
  simp only [fixFKStep, fixFKStepDryResults, entryInit, recordError, dryBump,
    Bool.not_true]
  cases findForeignKeyViolations acc.2 (substFK tname fk0) with
  | error e =>
    cases cfg with
    | none => rfl
    | some c =>
      by_cases hig : c.IgnoreMissingTables
      · simp [hig]
      · simp [hig]
  | ok violations =>
    by_cases hz : violations.length == 0
    · simp [hz]
    · simp [hz]

theorem fixNullStep_dry_eq (action defaultValue : String)
    (cfg : Option ValidationConfig) (tableName : String) (acc : FixAcc)
    (column : Column) :
    fixNullStep action defaultValue true cfg tableName acc column =
      (if !(column.IsNotNull) then acc.1
       else if nullSkip cfg acc.2 tableName column then acc.1
       else fixNullStepDryResults action column
         (findNullViolations acc.2 tableName column) tableName acc.1,
       acc.2) := by
  simp only [fixNullStep, fixNullStepDryResults, nullSkip, recordError, dryBump,
    Bool.not_true]
  by_cases hnn : column.IsNotNull
  · simp only [hnn, Bool.not_true]
    cases cfg with
    | none =>
      simp only [Bool.false_eq_true, if_false]
      cases findNullViolations acc.2 tableName column with
      | error e => simp
      | ok violations =>
        by_cases hz : violations.length == 0
        · simp [hz]
        · simp [hz]
    | some c =>
      by_cases hskip : ((c.IgnoreMissingTables && !(tableExists acc.2 tableName)) ||
        (c.IgnoreMissingColumns && !(columnExists acc.2 tableName column.ColumnName)))
      · simp [hskip]
      · simp only [hskip, Bool.false_eq_true, if_false]
        cases findNullViolations acc.2 tableName column with
        | error e => simp [hskip]
        | ok violations =>
          by_cases hz : violations.length == 0
          · simp [hz, hskip]
          · simp [hz, hskip]
  · have hnn' : column.IsNotNull = false := by
      cases h : column.IsNotNull
      · rfl
      · exact absurd h hnn
    simp [hnn']

theorem ResultsInv_insert {P : FixResult → Prop} {m : List (String × FixResult)}
    (h : ResultsInv P m) {k : String} {v : FixResult} (hv : P v) :
    ResultsInv P (mapInsert m k v) := by
  intro kv hkv
  rcases mem_mapInsert hkv with rfl | hkv'
  · exact hv
  · exact h kv hkv'

theorem ResultsInv_lookup {P : FixResult → Prop} {m : List (String × FixResult)}
    (h : ResultsInv P m) (hdef : P {}) (k : String) :
    P ((mapLookup m k).getD {}) := by
  cases hl : mapLookup m k with
  | none => simpa using hdef
  | some v => simpa using h (k, v) (mem_of_mapLookup_eq_some hl)

theorem ResultsInv_entryInit {P : FixResult → Prop} {m : List (String × FixResult)}
    (h : ResultsInv P m) (hdef : P {}) (k : String) :
    ResultsInv P (entryInit m k) := by
  unfold entryInit
  split
  · exact h
  · exact ResultsInv_insert h hdef

theorem DryInv_recordError {m : List (String × FixResult)} (h : DryInv m)
    (tableName e : String) : DryInv (recordError m tableName e) :=
  ResultsInv_insert h (ResultsInv_lookup h rfl tableName)

theorem DryInv_dryBump {m : List (String × FixResult)} (h : DryInv m)
    (tableName : String) (n : Nat) (details : String) :
    DryInv (dryBump m tableName n details) := by
  refine ResultsInv_insert h ?_
  have h0 := ResultsInv_lookup h rfl tableName
  simpa using congrArg (fun x => x + n) h0

theorem DryInv_fixFKStepDryResults (action : String) (cfg : Option ValidationConfig)
    (outcome : Except String (List ValidationIssue)) (tableName : String)
    {m : List (String × FixResult)} (h : DryInv m) :
    DryInv (fixFKStepDryResults action cfg outcome tableName m) := by
  have hres : DryInv (entryInit m tableName) := ResultsInv_entryInit h rfl tableName
  cases outcome with
  | error e =>
    cases cfg with
    | none =>
      simp only [fixFKStepDryResults]
      exact DryInv_recordError hres tableName e
    | some c =>
      simp only [fixFKStepDryResults]
      split
      · exact hres
      · exact DryInv_recordError hres tableName e
  | ok violations =>
    simp only [fixFKStepDryResults]
    split
    · exact hres
    · exact DryInv_dryBump hres tableName violations.length _

theorem DryInv_fixNullStepDryResults (action : String) (column : Column)
    (outcome : Except String (List ValidationIssue)) (tableName : String)
    {m : List (String × FixResult)} (h : DryInv m) :
    DryInv (fixNullStepDryResults action column outcome tableName m) := by
  cases outcome with
  | error e =>
    simp only [fixNullStepDryResults]
    exact DryInv_recordError h tableName e
  | ok violations =>
    simp only [fixNullStepDryResults]
    split
    · exact h
    · exact DryInv_dryBump h tableName violations.length _

theorem foldl_preserve {α σ : Type} (f : σ → α → σ) (P : σ → Prop)
    (hstep : ∀ st a, P st → P (f st a)) :
    ∀ (l : List α) (init : σ), P init → P (l.foldl f init) := by
  intro l
  induction l with
  | nil => intro init h; simpa using h
  | cons hd tl ih => intro init h; exact ih _ (hstep init hd h)

/-- C1: with `dryRun = true`, `FixForeignKeyViolations` and
`FixNullValueViolations` leave the database state unchanged (no mutation
executes), and every per-table `FixResult` they return reports
`RecordsAffected` equal to `IssuesFound`, the number of violations found. -/
theorem claim_C1_dry_run (s : DBState) (schema : Schema)
    (action defaultValue : String) (cfg : Option ValidationConfig) :
    ((FixForeignKeyViolations s schema action true cfg).2 = s ∧
      ∀ name r,
        mapLookup (FixForeignKeyViolations s schema action true cfg).1 name = some r →
        r.RecordsAffected = r.IssuesFound) ∧
    ((FixNullValueViolations s schema action defaultValue true cfg).2 = s ∧
      ∀ name r,
        mapLookup (FixNullValueViolations s schema action defaultValue true cfg).1
          name = some r →
        r.RecordsAffected = r.IssuesFound) := by
  constructor
  · have hfold : (fun acc : FixAcc => acc.2 = s ∧ DryInv acc.1)
        (FixForeignKeyViolations s schema action true cfg) := by
      unfold FixForeignKeyViolations
      refine foldl_preserve _ (fun acc : FixAcc => acc.2 = s ∧ DryInv acc.1) ?_
        schema ([], s) ⟨rfl, by intro kv hkv; cases hkv⟩
      intro acc table hacc
      refine foldl_preserve _ (fun acc' : FixAcc => acc'.2 = s ∧ DryInv acc'.1) ?_
        table.ForeignKeys acc hacc
      intro acc' fk0 hacc'
      rw [fixFKStep_dry_eq]
      exact ⟨hacc'.1, DryInv_fixFKStepDryResults _ _ _ _ hacc'.2⟩
    refine ⟨hfold.1, fun name r hr => ?_⟩
    exact hfold.2 (name, r) (mem_of_mapLookup_eq_some hr)
  · have hfold : (fun acc : FixAcc => acc.2 = s ∧ DryInv acc.1)
        (FixNullValueViolations s schema action defaultValue true cfg) := by
      unfold FixNullValueViolations
      refine foldl_preserve _ (fun acc : FixAcc => acc.2 = s ∧ DryInv acc.1) ?_
        schema ([], s) ⟨rfl, by intro kv hkv; cases hkv⟩
      intro acc table hacc
      unfold fixNullTableStep
      refine foldl_preserve _ (fun acc' : FixAcc => acc'.2 = s ∧ DryInv acc'.1) ?_
        table.Columns (entryInit acc.1 table.TableName, acc.2)
        ⟨hacc.1, ResultsInv_entryInit hacc.2 rfl table.TableName⟩
      intro acc' column hacc'
      rw [fixNullStep_dry_eq]
      refine ⟨hacc'.1, ?_⟩
      split
      · exact hacc'.2
      · split
        · exact hacc'.2
        · exact DryInv_fixNullStepDryResults _ _ _ _ hacc'.2
    refine ⟨hfold.1, fun name r hr => ?_⟩
    exact hfold.2 (name, r) (mem_of_mapLookup_eq_some hr)

theorem substFK_substFK (n : String) (fk : ForeignKey) :
    substFK n (substFK n fk) = substFK n fk := by
  unfold substFK
  by_cases h : fk.TableName == ""
  · simp only [h, if_true]
    by_cases hn : ((ForeignKey.mk fk.ConstraintName n fk.ColumnName
        fk.ReferencedTable fk.ReferencedColumn fk.UpdateRule fk.DeleteRule).TableName == "")
    · simp [hn]
    · simp [hn]
  · simp [h]

theorem fixFKStep_subst (action : String) (dryRun : Bool)
    (cfg : Option ValidationConfig) (tname : String) (acc : FixAcc)
    (fk0 : ForeignKey) :
    fixFKStep action dryRun cfg tname acc (substFK tname fk0) =
      fixFKStep action dryRun cfg tname acc fk0 := by
  simp only [fixFKStep, substFK_substFK]

/-- C9: a foreign key with empty `TableName` is treated as belonging to its
owning table, so a schema omitting `TableName` on its foreign keys validates
and fixes identically to the schema that spells it out. -/
theorem claim_C9_owning_table_substitution (s : DBState) (schema : Schema)
    (action : String) (dryRun : Bool) (cfg : Option ValidationConfig) :
    ValidateForeignKeys s schema = ValidateForeignKeys s (explicitFKSchema schema) ∧
    FixForeignKeyViolations s schema action dryRun cfg =
      FixForeignKeyViolations s (explicitFKSchema schema) action dryRun cfg := by
  constructor
  · unfold ValidateForeignKeys explicitFKSchema
    rw [List.foldl_map]
    congr 1
    funext issues table
    rw [List.foldl_map]
    simp only [substFK_substFK]
  · unfold FixForeignKeyViolations explicitFKSchema
    rw [List.foldl_map]
    congr 1
    funext acc table
    rw [List.foldl_map]
    simp only [fixFKStep_subst]

/-! ## Per-table result entries of the null-value fixer (C10) -/

theorem mapContains_insert_mono {α : Type} {m : List (String × α)} {k : String}
    (h : mapContains m k = true) (k' : String) (v : α) :
    mapContains (mapInsert m k' v) k = true := by
  rw [mapContains_insert]
  simp [h]

theorem entryInit_contains_self (m : List (String × FixResult)) (k : String) :
    mapContains (entryInit m k) k = true := by
  unfold entryInit
  split
  · assumption
  · rw [mapContains_insert]
    simp

theorem entryInit_contains_mono {m : List (String × FixResult)} {k : String}
    (h : mapContains m k = true) (k' : String) :
    mapContains (entryInit m k') k = true := by
  unfold entryInit
  split
  · exact h
  · exact mapContains_insert_mono h k' {}

theorem mapLookup_entryInit_ne {m : List (String × FixResult)} {k k' : String}
    (h : k ≠ k') : mapLookup (entryInit m k') k = mapLookup m k := by
  unfold entryInit
  split
  · rfl
  · exact mapLookup_insert_ne m k' k {} h

theorem mapLookup_entryInit_self (m : List (String × FixResult)) (k : String) :
    mapLookup (entryInit m k) k = some ((mapLookup m k).getD {}) := by
  unfold entryInit
  split
  next h =>
    unfold mapContains at h
    cases hl : mapLookup m k with
    | none => rw [hl] at h; cases h
    | some v => simp [hl]
  · rw [mapLookup_insert_self]
    next h =>
      unfold mapContains at h
      cases hl : mapLookup m k with
      | none => simp
      | some v => rw [hl] at h; simp at h

theorem lookupTable_updateTable_of_ne (s : DBState) (n n' : String)
    (f : DBTable → DBTable) (hf : ∀ t, (f t).name = t.name) (h : n' ≠ n) :
    (s.updateTable n f).lookupTable n' = s.lookupTable n' := by
  unfold DBState.updateTable DBState.lookupTable
  induction s.tables with
  | nil => rfl
  | cons hd tl ih =>
    simp only [List.map_cons, List.find?_cons]
    by_cases hname : hd.name = n
    · have h1 : (hd.name == n) = true := by simp [hname]
      have h2 : ((f hd).name == n') = false := by
        rw [hf hd]
        simp [hname, Ne.symm h]
      have h3 : (hd.name == n') = false := by simp [hname, Ne.symm h]
      simp only [h1, if_true, h2, h3]
      exact ih
    · have h1 : (hd.name == n) = false := by simp [hname]
      simp only [h1, if_false, Bool.false_eq_true]
      by_cases h4 : hd.name = n'
      · simp [h4]
      · have h5 : (hd.name == n') = false := by simp [h4]
        simp only [h5, if_false, Bool.false_eq_true]
        exact ih

theorem removeNullValueRecords_state {s : DBState} {tn cn : String} {n : Nat}
    {s' : DBState} (h : removeNullValueRecords s tn cn = .ok (n, s')) :
    ∃ f, (∀ t, (f t).name = t.name) ∧ s' = s.updateTable tn f := by
  unfold removeNullValueRecords at h
  cases hl : s.lookupTable tn with
  | none => rw [hl] at h; cases h
  | some t =>
    rw [hl] at h
    by_cases hc : t.hasColumn cn = true
    · simp only [hc, Bool.not_true, Bool.false_eq_true, if_false,
        Except.ok.injEq, Prod.mk.injEq] at h
      refine ⟨fun t' => { t' with
        rows := t'.rows.filter (fun r => !((r.cell cn).isNone)) },
        fun t' => rfl, h.2.symm⟩
    · have hc' : t.hasColumn cn = false := by
        cases hcc : t.hasColumn cn
        · rfl
        · exact absurd hcc hc
      simp only [hc', Bool.not_false, if_true] at h
      cases h

theorem setNullValuesToDefault_state {s : DBState} {tn cn dv : String} {n : Nat}
    {s' : DBState} (h : setNullValuesToDefault s tn cn dv = .ok (n, s')) :
    ∃ f, (∀ t, (f t).name = t.name) ∧ s' = s.updateTable tn f := by
  unfold setNullValuesToDefault at h
  cases hl : s.lookupTable tn with
  | none => rw [hl] at h; cases h
  | some t =>
    rw [hl] at h
    by_cases hc : t.hasColumn cn = true
    · simp only [hc, Bool.not_true, Bool.false_eq_true, if_false,
        Except.ok.injEq, Prod.mk.injEq] at h
      refine ⟨fun t' => { t' with
        rows := t'.rows.map (fun r =>
          if (r.cell cn).isNone then
            ⟨fun c => if c == cn then some dv else r.cell c⟩
          else r) },
        fun t' => rfl, h.2.symm⟩
    · have hc' : t.hasColumn cn = false := by
        cases hcc : t.hasColumn cn
        · rfl
        · exact absurd hcc hc
      simp only [hc', Bool.not_false, if_true] at h
      cases h

theorem findNullViolations_congr {s s' : DBState} (n : String) (c : Column)
    (limit : Nat) (h : s'.lookupTable n = s.lookupTable n) :
    findNullViolations s' n c limit = findNullViolations s n c limit := by
  simp only [findNullViolations, getIdentifierColumn, getTableColumns,
    columnExists, h]

theorem nullSkip_congr (cfg : Option ValidationConfig) {s s' : DBState}
    (n : String) (c : Column) (h : s'.lookupTable n = s.lookupTable n) :
    nullSkip cfg s' n c = nullSkip cfg s n c := by
  simp only [nullSkip, tableExists, columnExists, h]

/-- Every null-fixer iteration either leaves the result map alone or writes
the entry of its own table, and either leaves the database alone or rewrites
the rows of its own table. -/
theorem fixNullStep_shape (action defaultValue : String) (dryRun : Bool)
    (cfg : Option ValidationConfig) (tableName : String) (acc : FixAcc)
    (column : Column) :
    ((fixNullStep action defaultValue dryRun cfg tableName acc column).1 = acc.1 ∨
      ∃ v, (fixNullStep action defaultValue dryRun cfg tableName acc column).1 =
        mapInsert acc.1 tableName v) ∧
    ((fixNullStep action defaultValue dryRun cfg tableName acc column).2 = acc.2 ∨
      ∃ f, (∀ t, (f t).name = t.name) ∧
        (fixNullStep action defaultValue dryRun cfg tableName acc column).2 =
          acc.2.updateTable tableName f) := by
  unfold fixNullStep
  by_cases hnn : (!(column.IsNotNull)) = true
  · simp only [hnn, if_true]
    exact ⟨Or.inl trivial, Or.inl trivial⟩
  · have hnn' : (!(column.IsNotNull)) = false := by
      cases hb : (!(column.IsNotNull))
      · rfl
      · exact absurd hb hnn
    simp only [hnn', if_false, Bool.false_eq_true]
    split
    · exact ⟨Or.inl rfl, Or.inl rfl⟩
    · cases hfind : findNullViolations acc.2 tableName column with
      | error e => exact ⟨Or.inr ⟨_, rfl⟩, Or.inl rfl⟩
      | ok violations =>
        simp only []
        split
        · exact ⟨Or.inl rfl, Or.inl rfl⟩
        · by_cases hdr : (!dryRun) = true
          · simp only [hdr, if_true]
            split
            next e heq => exact ⟨Or.inr ⟨_, rfl⟩, Or.inl rfl⟩
            next n s' heq =>
              refine ⟨Or.inr ⟨_, rfl⟩, ?_⟩
              by_cases hr : (action == "remove") = true
              · rw [if_pos hr] at heq
                rcases removeNullValueRecords_state heq with ⟨f, hf, rfl⟩
                exact Or.inr ⟨f, hf, rfl⟩
              · rw [if_neg hr] at heq
                by_cases hs : (action == "set-default") = true
                · rw [if_pos hs] at heq
                  rcases setNullValuesToDefault_state heq with ⟨f, hf, rfl⟩
                  exact Or.inr ⟨f, hf, rfl⟩
                · rw [if_neg hs] at heq
                  cases heq
          · have hdr' : (!dryRun) = false := by
              cases hb : (!dryRun)
              · rfl
              · exact absurd hb hdr
            simp only [hdr', if_false, Bool.false_eq_true]
            exact ⟨Or.inr ⟨_, rfl⟩, Or.inl trivial⟩

theorem foldl_preserve_mem {α σ : Type} (f : σ → α → σ) (P : σ → Prop) :
    ∀ (l : List α), (∀ st a, a ∈ l → P st → P (f st a)) →
      ∀ init, P init → P (l.foldl f init) := by
  intro l
  induction l with
  | nil => intro _ init h; simpa using h
  | cons hd tl ih =>
    intro hstep init h
    exact ih (fun st a ha => hstep st a (List.mem_cons_of_mem _ ha)) _
      (hstep init hd (List.mem_cons_self _ _) h)

theorem fixNullStep_preserve_other (action defaultValue : String) (dryRun : Bool)
    (cfg : Option ValidationConfig) {tableName name : String}
    (hne : tableName ≠ name) (acc : FixAcc) (column : Column) :
    mapLookup (fixNullStep action defaultValue dryRun cfg tableName acc column).1
        name = mapLookup acc.1 name ∧
    (fixNullStep action defaultValue dryRun cfg tableName acc column).2.lookupTable
        name = acc.2.lookupTable name := by
  obtain ⟨h1, h2⟩ := fixNullStep_shape action defaultValue dryRun cfg tableName
    acc column
  constructor
  · rcases h1 with h | ⟨v, h⟩
    · rw [h]
    · rw [h]
      exact mapLookup_insert_ne acc.1 tableName name v (Ne.symm hne)
  · rcases h2 with h | ⟨f, hf, h⟩
    · rw [h]
    · rw [h]
      exact lookupTable_updateTable_of_ne acc.2 tableName name f hf (Ne.symm hne)

theorem fixNullStep_contains (action defaultValue : String) (dryRun : Bool)
    (cfg : Option ValidationConfig) (tableName : String) {k : String}
    (acc : FixAcc) (column : Column) (h : mapContains acc.1 k = true) :
    mapContains (fixNullStep action defaultValue dryRun cfg tableName acc column).1
      k = true := by
  obtain ⟨h1, _⟩ := fixNullStep_shape action defaultValue dryRun cfg tableName
    acc column
  rcases h1 with h' | ⟨v, h'⟩
  · rw [h']; exact h
  · rw [h']; exact mapContains_insert_mono h tableName v

theorem fixNullStep_noop (action defaultValue : String) (dryRun : Bool)
    (cfg : Option ValidationConfig) (s : DBState) {name : String} {acc : FixAcc}
    {column : Column}
    (hstate : acc.2.lookupTable name = s.lookupTable name)
    (hq : column.IsNotNull = true → findNullViolations s name column = .ok []) :
    fixNullStep action defaultValue dryRun cfg name acc column = acc := by
  unfold fixNullStep
  by_cases hnn : (!(column.IsNotNull)) = true
  · simp [hnn]
  · have hnn2 : column.IsNotNull = true := by
      cases h : column.IsNotNull
      · rw [h] at hnn; simp at hnn
      · rfl
    have hnn' : (!(column.IsNotNull)) = false := by simp [hnn2]
    have hfind : findNullViolations acc.2 name column = .ok [] := by
      rw [findNullViolations_congr name column 1000 hstate]
      exact hq hnn2
    simp only [hnn', if_false, Bool.false_eq_true]
    split
    · rfl
    · simp [hfind]

theorem fixNullTableStep_contains_mono (action defaultValue : String)
    (dryRun : Bool) (cfg : Option ValidationConfig) {k : String} (acc : FixAcc)
    (table : Table) (h : mapContains acc.1 k = true) :
    mapContains
      (fixNullTableStep action defaultValue dryRun cfg acc table).1 k = true := by
  unfold fixNullTableStep
  refine foldl_preserve _ (fun a : FixAcc => mapContains a.1 k = true) ?_
    table.Columns (entryInit acc.1 table.TableName, acc.2)
    (entryInit_contains_mono h table.TableName)
  intro st column hst
  exact fixNullStep_contains action defaultValue dryRun cfg table.TableName
    st column hst

theorem fixNullTableStep_contains_self (action defaultValue : String)
    (dryRun : Bool) (cfg : Option ValidationConfig) (acc : FixAcc) (table : Table) :
    mapContains
      (fixNullTableStep action defaultValue dryRun cfg acc table).1
      table.TableName = true := by
  unfold fixNullTableStep
  refine foldl_preserve _ (fun a : FixAcc => mapContains a.1 table.TableName = true)
    ?_ table.Columns (entryInit acc.1 table.TableName, acc.2)
    (entryInit_contains_self acc.1 table.TableName)
  intro st column hst
  exact fixNullStep_contains action defaultValue dryRun cfg table.TableName
    st column hst

theorem fixNullTableStep_preserve_other (action defaultValue : String)
    (dryRun : Bool) (cfg : Option ValidationConfig) {name : String} (acc : FixAcc)
    (table : Table) (hne : table.TableName ≠ name) :
    mapLookup (fixNullTableStep action defaultValue dryRun cfg acc table).1 name =
      mapLookup acc.1 name ∧
    (fixNullTableStep action defaultValue dryRun cfg acc table).2.lookupTable name =
      acc.2.lookupTable name := by
  unfold fixNullTableStep
  refine foldl_preserve _ (fun a : FixAcc =>
      mapLookup a.1 name = mapLookup acc.1 name ∧
      a.2.lookupTable name = acc.2.lookupTable name) ?_
    table.Columns (entryInit acc.1 table.TableName, acc.2)
    ⟨mapLookup_entryInit_ne (Ne.symm hne), rfl⟩
  intro st column hst
  obtain ⟨h1, h2⟩ := fixNullStep_preserve_other action defaultValue dryRun cfg
    hne st column
  exact ⟨h1.trans hst.1, h2.trans hst.2⟩

theorem fixNullTableStep_quiet (action defaultValue : String) (dryRun : Bool)
    (cfg : Option ValidationConfig) (s : DBState) {name : String} (acc : FixAcc)
    (table : Table) (heq : table.TableName = name)
    (hstate : acc.2.lookupTable name = s.lookupTable name)
    (hq : ∀ c ∈ table.Columns, c.IsNotNull = true →
      findNullViolations s name c = .ok [])
    (hlk : mapLookup acc.1 name = none ∨ mapLookup acc.1 name = some {}) :
    mapLookup (fixNullTableStep action defaultValue dryRun cfg acc table).1 name =
      some {} ∧
    (fixNullTableStep action defaultValue dryRun cfg acc table).2.lookupTable name =
      s.lookupTable name := by
  have hfold : ∀ (cols : List Column) (acc' : FixAcc),
      acc'.2.lookupTable name = s.lookupTable name →
      (∀ c ∈ cols, c.IsNotNull = true → findNullViolations s name c = .ok []) →
      cols.foldl (fixNullStep action defaultValue dryRun cfg name) acc' = acc' := by
    intro cols
    induction cols with
    | nil => intro acc' _ _; rfl
    | cons hd tl ih =>
      intro acc' hst hq'
      rw [List.foldl_cons,
        fixNullStep_noop action defaultValue dryRun cfg s hst
          (hq' hd (List.mem_cons_self hd tl))]
      exact ih acc' hst (fun c hc => hq' c (List.mem_cons_of_mem hd hc))
  unfold fixNullTableStep
  rw [heq, hfold table.Columns (entryInit acc.1 name, acc.2) hstate hq]
  refine ⟨?_, hstate⟩
  rw [mapLookup_entryInit_self]
  rcases hlk with h | h
  · rw [h]; rfl
  · rw [h]; rfl

/-- C10: the `FixResults` map of `FixNullValueViolations` has an entry for
every table of the target schema; a table none of whose same-named schema
entries has a NOT NULL column with violations (in particular a table with no
NOT NULL columns, or one where every violation search came back empty) maps
to the zero-valued `FixResult`. -/
theorem claim_C10_null_fix_entries (s : DBState) (schema : Schema)
    (action defaultValue : String) (dryRun : Bool)
    (cfg : Option ValidationConfig) (t : Table) (ht : t ∈ schema) :
    (mapContains
      (FixNullValueViolations s schema action defaultValue dryRun cfg).1
      t.TableName = true) ∧
    ((∀ t' ∈ schema, t'.TableName = t.TableName →
        ∀ c ∈ t'.Columns, c.IsNotNull = true →
          findNullViolations s t.TableName c = .ok []) →
      mapLookup (FixNullValueViolations s schema action defaultValue dryRun cfg).1
        t.TableName =
        some { IssuesFound := 0, RecordsAffected := 0, Success := false,
               Error := "", Details := "" }) := by
  obtain ⟨l₁, l₂, rfl⟩ := List.append_of_mem ht
  constructor
  · unfold FixNullValueViolations
    rw [List.foldl_append, List.foldl_cons]
    refine foldl_preserve _
      (fun a : FixAcc => mapContains a.1 t.TableName = true) ?_ l₂ _
      (fixNullTableStep_contains_self action defaultValue dryRun cfg _ t)
    intro st table hst
    exact fixNullTableStep_contains_mono action defaultValue dryRun cfg st table hst
  · intro hq
    unfold FixNullValueViolations
    rw [List.foldl_append, List.foldl_cons]
    have hstep2 : ∀ (st : FixAcc) (table : Table), table ∈ l₂ →
        (mapLookup st.1 t.TableName = some {} ∧
          st.2.lookupTable t.TableName = s.lookupTable t.TableName) →
        (mapLookup (fixNullTableStep action defaultValue dryRun cfg st table).1
            t.TableName = some {} ∧
          (fixNullTableStep action defaultValue dryRun cfg st table).2.lookupTable
            t.TableName = s.lookupTable t.TableName) := by
      intro st table htab hst
      by_cases hname : table.TableName = t.TableName
      · exact fixNullTableStep_quiet action defaultValue dryRun cfg s st table
          hname hst.2
          (hq table (by simp [htab]) hname) (Or.inr hst.1)
      · obtain ⟨h1, h2⟩ := fixNullTableStep_preserve_other action defaultValue
          dryRun cfg st table hname
        exact ⟨h1.trans hst.1, h2.trans hst.2⟩
    have hmid : mapLookup
        (fixNullTableStep action defaultValue dryRun cfg
          (l₁.foldl (fixNullTableStep action defaultValue dryRun cfg) ([], s)) t).1
          t.TableName = some {} ∧
        (fixNullTableStep action defaultValue dryRun cfg
          (l₁.foldl (fixNullTableStep action defaultValue dryRun cfg) ([], s)) t).2.lookupTable
          t.TableName = s.lookupTable t.TableName := by
      have hl1 : (fun a : FixAcc =>
          (mapLookup a.1 t.TableName = none ∨ mapLookup a.1 t.TableName = some {}) ∧
          a.2.lookupTable t.TableName = s.lookupTable t.TableName)
          (l₁.foldl (fixNullTableStep action defaultValue dryRun cfg) ([], s)) := by
        refine foldl_preserve_mem _ (fun a : FixAcc =>
          (mapLookup a.1 t.TableName = none ∨ mapLookup a.1 t.TableName = some {}) ∧
          a.2.lookupTable t.TableName = s.lookupTable t.TableName) l₁ ?_ ([], s)
          ⟨Or.inl rfl, rfl⟩
        intro st table htab hst
        by_cases hname : table.TableName = t.TableName
        · have := fixNullTableStep_quiet action defaultValue dryRun cfg s st table
            hname hst.2 (hq table (by simp [htab]) hname) hst.1
          exact ⟨Or.inr this.1, this.2⟩
        · obtain ⟨h1, h2⟩ := fixNullTableStep_preserve_other action defaultValue
            dryRun cfg st table hname
          refine ⟨?_, h2.trans hst.2⟩
          rcases hst.1 with h | h
          · exact Or.inl (h1.trans h)
          · exact Or.inr (h1.trans h)
      exact fixNullTableStep_quiet action defaultValue dryRun cfg s _ t rfl
        hl1.2 (hq t (by simp) rfl) hl1.1
    have hfin := foldl_preserve_mem _
      (fun a : FixAcc => mapLookup a.1 t.TableName = some {} ∧
        a.2.lookupTable t.TableName = s.lookupTable t.TableName) l₂ hstep2 _ hmid
    exact hfin.1

theorem sumOkLengths_append (a b : List (Except String (List ValidationIssue))) :
    sumOkLengths (a ++ b) = sumOkLengths a + sumOkLengths b := by
  unfold sumOkLengths
  rw [List.map_append, List.sum_append]

theorem lastErrorMsg_append_error
    (l : List (Except String (List ValidationIssue))) (m : String) :
    lastErrorMsg (l ++ [.error m]) = m := by
  unfold lastErrorMsg
  rw [List.foldl_append]
  rfl

theorem lastErrorMsg_append_ok (l : List (Except String (List ValidationIssue)))
    (v : List ValidationIssue) :
    lastErrorMsg (l ++ [.ok v]) = lastErrorMsg l := by
  unfold lastErrorMsg
  rw [List.foldl_append]
  rfl

theorem anyOkNonempty_append_error
    (l : List (Except String (List ValidationIssue))) (m : String) :
    anyOkNonempty (l ++ [.error m]) = anyOkNonempty l := by
  unfold anyOkNonempty
  rw [List.any_append]
  simp

theorem anyOkNonempty_append_ok
    (l : List (Except String (List ValidationIssue))) (v : List ValidationIssue) :
    anyOkNonempty (l ++ [.ok v]) = (anyOkNonempty l || !v.isEmpty) := by
  unfold anyOkNonempty
  rw [List.any_append]
  simp

theorem sumOkLengths_append_error
    (l : List (Except String (List ValidationIssue))) (m : String) :
    sumOkLengths (l ++ [.error m]) = sumOkLengths l := by
  rw [sumOkLengths_append]
  rfl

theorem sumOkLengths_append_ok
    (l : List (Except String (List ValidationIssue))) (v : List ValidationIssue) :
    sumOkLengths (l ++ [.ok v]) = sumOkLengths l + v.length := by
  rw [sumOkLengths_append]
  rfl

theorem DryRunChar_empty : DryRunChar {} [] :=
  ⟨rfl, rfl, rfl, rfl⟩

theorem DryRunChar_error {r : FixResult}
    {done : List (Except String (List ValidationIssue))} (h : DryRunChar r done)
    (e : String) :
    DryRunChar { r with Error := e } (done ++ [.error e]) := by
  obtain ⟨h1, h2, _, h4⟩ := h
  refine ⟨?_, ?_, ?_, ?_⟩
  · rw [sumOkLengths_append_error]; exact h1
  · rw [sumOkLengths_append_error]; exact h2
  · rw [lastErrorMsg_append_error]
  · rw [anyOkNonempty_append_error]; exact h4

theorem DryRunChar_okEmpty {r : FixResult}
    {done : List (Except String (List ValidationIssue))} (h : DryRunChar r done) :
    DryRunChar r (done ++ [.ok []]) := by
  obtain ⟨h1, h2, h3, h4⟩ := h
  refine ⟨?_, ?_, ?_, ?_⟩
  · rw [sumOkLengths_append_ok]; simpa using h1
  · rw [sumOkLengths_append_ok]; simpa using h2
  · rw [lastErrorMsg_append_ok]; exact h3
  · rw [anyOkNonempty_append_ok]; simp [h4]

theorem DryRunChar_bump {r : FixResult}
    {done : List (Except String (List ValidationIssue))} (h : DryRunChar r done)
    {v : List ValidationIssue} (hv : v.isEmpty = false) (details : String) :
    DryRunChar
      { r with
          IssuesFound := r.IssuesFound + v.length,
          RecordsAffected := r.RecordsAffected + v.length,
          Success := true,
          Details := details }
      (done ++ [.ok v]) := by
  obtain ⟨h1, h2, h3, _⟩ := h
  refine ⟨?_, ?_, ?_, ?_⟩
  · rw [sumOkLengths_append_ok, h1]
  · rw [sumOkLengths_append_ok, h2]
  · rw [lastErrorMsg_append_ok]; exact h3
  · rw [anyOkNonempty_append_ok]; simp [hv]

theorem EntryChar_entryInit {m : List (String × FixResult)} {name : String}
    {done : List (Except String (List ValidationIssue))}
    (h : EntryChar m name done) :
    mapLookup (entryInit m name) name = some ((mapLookup m name).getD {}) ∧
      DryRunChar ((mapLookup m name).getD {}) done := by
  refine ⟨mapLookup_entryInit_self m name, ?_⟩
  rcases h with ⟨hl, hd⟩ | ⟨r, hl, hr⟩
  · rw [hl, hd]
    exact DryRunChar_empty
  · rw [hl]
    exact hr

theorem nullSkip_none (s : DBState) (n : String) (c : Column) :
    nullSkip none s n c = false := rfl

theorem recordError_lookup_self (m : List (String × FixResult)) (k e : String) :
    mapLookup (recordError m k e) k =
      some { (mapLookup m k).getD {} with Error := e } :=
  mapLookup_insert_self _ _ _

theorem recordError_lookup_ne (m : List (String × FixResult)) {k name : String}
    (e : String) (hne : name ≠ k) :
    mapLookup (recordError m k e) name = mapLookup m name :=
  mapLookup_insert_ne _ _ _ _ hne

theorem dryBump_lookup_self (m : List (String × FixResult)) (k : String) (n : Nat)
    (d : String) :
    mapLookup (dryBump m k n d) k =
      some { (mapLookup m k).getD {} with
               IssuesFound := ((mapLookup m k).getD {}).IssuesFound + n,
               RecordsAffected := ((mapLookup m k).getD {}).RecordsAffected + n,
               Success := true,
               Details := d } :=
  mapLookup_insert_self _ _ _

theorem dryBump_lookup_ne (m : List (String × FixResult)) {k name : String}
    (n : Nat) (d : String) (hne : name ≠ k) :
    mapLookup (dryBump m k n d) name = mapLookup m name :=
  mapLookup_insert_ne _ _ _ _ hne

theorem fixFKStepDryResults_lookup_other (action : String)
    (cfg : Option ValidationConfig)
    (outcome : Except String (List ValidationIssue)) {key name : String}
    (m : List (String × FixResult)) (hne : name ≠ key) :
    mapLookup (fixFKStepDryResults action cfg outcome key m) name =
      mapLookup m name := by
  cases outcome with
  | error e =>
    cases cfg with
    | none =>
      simp only [fixFKStepDryResults]
      rw [recordError_lookup_ne _ _ hne, mapLookup_entryInit_ne hne]
    | some c =>
      simp only [fixFKStepDryResults]
      split
      · rw [mapLookup_entryInit_ne hne]
      · rw [recordError_lookup_ne _ _ hne, mapLookup_entryInit_ne hne]
  | ok v =>
    simp only [fixFKStepDryResults]
    split
    · rw [mapLookup_entryInit_ne hne]
    · rw [dryBump_lookup_ne _ _ _ hne, mapLookup_entryInit_ne hne]

theorem isEmpty_false_of_bne {v : List ValidationIssue}
    (h : ¬((v.length == 0) = true)) : v.isEmpty = false := by
  cases v with
  | nil => exact absurd rfl h
  | cons hd tl => rfl

theorem eq_nil_of_beq {v : List ValidationIssue} (h : (v.length == 0) = true) :
    v = [] := by
  cases v with
  | nil => rfl
  | cons hd tl => simp at h

/-- Dry-run characterization of the null-fixer's column loop for the table
being processed. -/
theorem fixNull_col_char (action defaultValue : String) (s : DBState)
    (name : String) :
    ∀ (cols : List Column) (acc : FixAcc)
      (done : List (Except String (List ValidationIssue))) (r : FixResult),
      acc.2 = s →
      mapLookup acc.1 name = some r →
      DryRunChar r done →
      (∃ r', mapLookup
          ((cols.foldl (fixNullStep action defaultValue true none name) acc)).1
          name = some r' ∧
        DryRunChar r' (done ++ (cols.filter (fun c => c.IsNotNull)).map
          (fun c => findNullViolations s name c))) ∧
      (cols.foldl (fixNullStep action defaultValue true none name) acc).2 = s := by
  intro cols
  induction cols with
  | nil =>
    intro acc done r h2 hl hc
    refine ⟨⟨r, hl, ?_⟩, h2⟩
    simpa using hc
  | cons c cols ih =>
    intro acc done r h2 hl hc
    rw [List.foldl_cons, fixNullStep_dry_eq]
    by_cases hnn : c.IsNotNull = true
    · have hnn' : (!c.IsNotNull) = false := by simp [hnn]
      rw [hnn']
      simp only [Bool.false_eq_true, if_false, nullSkip_none, h2]
      have hfilter : ((c :: cols).filter (fun c => c.IsNotNull)).map
          (fun c => findNullViolations s name c) =
          findNullViolations s name c ::
            (cols.filter (fun c => c.IsNotNull)).map
              (fun c => findNullViolations s name c) := by
        rw [List.filter_cons_of_pos hnn, List.map_cons]
      rw [hfilter, List.append_cons]
      cases hfind : findNullViolations s name c with
      | error e =>
        simp only [fixNullStepDryResults]
        refine ih (recordError acc.1 name e, s) (done ++ [.error e])
          { r with Error := e } rfl ?_ (DryRunChar_error hc e)
        rw [recordError_lookup_self, hl]
        rfl
      | ok v =>
        by_cases hz : (v.length == 0) = true
        · have hv : v = [] := eq_nil_of_beq hz
          subst hv
          simp only [fixNullStepDryResults, List.length_nil, if_pos]
          exact ih (acc.1, s) (done ++ [.ok []]) r rfl hl (DryRunChar_okEmpty hc)
        · have hz' : (v.length == 0) = false := by
            cases hb : (v.length == 0)
            · rfl
            · exact absurd hb hz
          simp only [fixNullStepDryResults, hz', Bool.false_eq_true, if_false]
          have hlb : mapLookup (dryBump acc.1 name v.length
              ("Would " ++ action ++ " " ++ toString v.length ++
                " records in column " ++ c.ColumnName)) name =
              some { r with
                  IssuesFound := r.IssuesFound + v.length,
                  RecordsAffected := r.RecordsAffected + v.length,
                  Success := true,
                  Details := "Would " ++ action ++ " " ++ toString v.length ++
                    " records in column " ++ c.ColumnName } := by
            rw [dryBump_lookup_self, hl]
            rfl
          exact ih (dryBump acc.1 name v.length
              ("Would " ++ action ++ " " ++ toString v.length ++
                " records in column " ++ c.ColumnName), s)
            (done ++ [.ok v]) _ rfl hlb
            (DryRunChar_bump hc (isEmpty_false_of_bne hz) _)
    · have hnn0 : c.IsNotNull = false := by
        cases hb : c.IsNotNull
        · rfl
        · exact absurd hb hnn
      have hnn' : (!c.IsNotNull) = true := by simp [hnn0]
      rw [hnn']
      simp only [if_true]
      have hfilter : ((c :: cols).filter (fun c => c.IsNotNull)).map
          (fun c => findNullViolations s name c) =
          (cols.filter (fun c => c.IsNotNull)).map
            (fun c => findNullViolations s name c) := by
        rw [List.filter_cons_of_neg (by simp [hnn0])]
      rw [hfilter]
      exact ih (acc.1, acc.2) done r h2 hl hc

theorem fixNullTableStep_dry_state (action defaultValue : String)
    (cfg : Option ValidationConfig) (acc : FixAcc) (t : Table) :
    (fixNullTableStep action defaultValue true cfg acc t).2 = acc.2 := by
  unfold fixNullTableStep
  refine foldl_preserve _ (fun a : FixAcc => a.2 = acc.2) ?_ t.Columns
    (entryInit acc.1 t.TableName, acc.2) rfl
  intro st column hst
  rw [fixNullStep_dry_eq]
  exact hst

/-- Dry-run characterization of one table iteration of the null fixer. -/
theorem fixNull_table_char (action defaultValue : String) (s : DBState)
    (name : String) (acc : FixAcc) (t : Table)
    (done : List (Except String (List ValidationIssue)))
    (h2 : acc.2 = s) (hE : EntryChar acc.1 name done) :
    EntryChar (fixNullTableStep action defaultValue true none acc t).1 name
      (done ++ (if t.TableName == name then
        (t.Columns.filter (fun c => c.IsNotNull)).map
          (fun c => findNullViolations s name c)
        else [])) ∧
    (fixNullTableStep action defaultValue true none acc t).2 = s := by
  by_cases hname : t.TableName = name
  · rw [if_pos (by simp [hname])]
    subst hname
    obtain ⟨hl, hc⟩ := EntryChar_entryInit hE
    unfold fixNullTableStep
    obtain ⟨⟨r', hl', hc'⟩, hst⟩ := fixNull_col_char action defaultValue s
      t.TableName t.Columns (entryInit acc.1 t.TableName, acc.2) done
      ((mapLookup acc.1 t.TableName).getD {}) h2 hl hc
    exact ⟨Or.inr ⟨r', hl', hc'⟩, hst⟩
  · rw [if_neg (by simp [hname]), List.append_nil]
    obtain ⟨hlk, _⟩ := fixNullTableStep_preserve_other action defaultValue true
      none acc t hname
    constructor
    · rcases hE with ⟨hn, hd⟩ | ⟨r, hr, hc⟩
      · exact Or.inl ⟨hlk.trans hn, hd⟩
      · exact Or.inr ⟨r, hlk.trans hr, hc⟩
    · rw [fixNullTableStep_dry_state]
      exact h2

/-- Dry-run characterization of the whole null fixer, per table name. -/
theorem fixNull_schema_char (action defaultValue : String) (s : DBState)
    (name : String) :
    ∀ (ts : List Table) (acc : FixAcc)
      (done : List (Except String (List ValidationIssue))),
      acc.2 = s → EntryChar acc.1 name done →
      EntryChar
        ((ts.foldl (fixNullTableStep action defaultValue true none) acc)).1 name
        (done ++ nullFindOutcomes s ts name) ∧
      ((ts.foldl (fixNullTableStep action defaultValue true none) acc)).2 = s := by
  intro ts
  induction ts with
  | nil =>
    intro acc done h2 hE
    simpa [nullFindOutcomes] using ⟨hE, h2⟩
  | cons t ts ih =>
    intro acc done h2 hE
    rw [List.foldl_cons]
    have hout : nullFindOutcomes s (t :: ts) name =
        (if t.TableName == name then
          (t.Columns.filter (fun c => c.IsNotNull)).map
            (fun c => findNullViolations s name c)
          else []) ++ nullFindOutcomes s ts name := by
      unfold nullFindOutcomes
      rw [List.flatMap_cons]
    rw [hout, ← List.append_assoc]
    obtain ⟨hE', h2'⟩ := fixNull_table_char action defaultValue s name acc t
      done h2 hE
    exact ih (fixNullTableStep action defaultValue true none acc t) _ h2' hE'

/-- Dry-run characterization of the foreign-key fixer's per-table loop. -/
theorem fixFK_fk_char (action : String) (s : DBState) (name tname : String) :
    ∀ (fks : List ForeignKey) (acc : FixAcc)
      (done : List (Except String (List ValidationIssue))),
      acc.2 = s → EntryChar acc.1 name done →
      EntryChar ((fks.foldl (fixFKStep action true none tname) acc)).1 name
        (done ++ (fks.map (substFK tname)).filterMap (fun fk =>
          if fk.TableName == name then
            some (findForeignKeyViolations s fk) else none)) ∧
      ((fks.foldl (fixFKStep action true none tname) acc)).2 = s := by
  intro fks
  induction fks with
  | nil =>
    intro acc done h2 hE
    simpa using ⟨hE, h2⟩
  | cons fk0 fks ih =>
    intro acc done h2 hE
    rw [List.foldl_cons, fixFKStep_dry_eq, h2, List.map_cons, List.filterMap_cons]
    by_cases hkey : (substFK tname fk0).TableName = name
    · have hkeyb : ((substFK tname fk0).TableName == name) = true := by simp [hkey]
      simp only [hkeyb, if_true]
      rw [List.append_cons, hkey]
      obtain ⟨hl0, hc0⟩ := EntryChar_entryInit hE
      cases hfind : findForeignKeyViolations s (substFK tname fk0) with
      | error e =>
        simp only [fixFKStepDryResults]
        refine ih (recordError (entryInit acc.1 name) name e, s)
          (done ++ [.error e]) rfl
          (Or.inr ⟨{ (mapLookup acc.1 name).getD {} with Error := e }, ?_,
            DryRunChar_error hc0 e⟩)
        rw [recordError_lookup_self, hl0]
        rfl
      | ok v =>
        by_cases hz : (v.length == 0) = true
        · have hv : v = [] := eq_nil_of_beq hz
          subst hv
          simp only [fixFKStepDryResults, List.length_nil, if_pos]
          exact ih (entryInit acc.1 name, s) (done ++ [.ok []]) rfl
            (Or.inr ⟨_, hl0, DryRunChar_okEmpty hc0⟩)
        · have hz' : (v.length == 0) = false := by
            cases hb : (v.length == 0)
            · rfl
            · exact absurd hb hz
          simp only [fixFKStepDryResults, hz', Bool.false_eq_true, if_false]
          refine ih (dryBump (entryInit acc.1 name) name v.length
              ("Would " ++ action ++ " " ++ toString v.length ++ " records"), s)
            (done ++ [.ok v]) rfl
            (Or.inr ⟨{ (mapLookup acc.1 name).getD {} with
                IssuesFound := ((mapLookup acc.1 name).getD {}).IssuesFound +
                  v.length,
                RecordsAffected :=
                  ((mapLookup acc.1 name).getD {}).RecordsAffected + v.length,
                Success := true,
                Details := "Would " ++ action ++ " " ++ toString v.length ++
                  " records" }, ?_,
              DryRunChar_bump hc0 (isEmpty_false_of_bne hz) _⟩)
          rw [dryBump_lookup_self, hl0]
          rfl
    · have hkeyb : ((substFK tname fk0).TableName == name) = false := by
        simp [hkey]
      simp only [hkeyb, Bool.false_eq_true, if_false]
      refine ih _ done rfl ?_
      have hpres := fixFKStepDryResults_lookup_other action none
        (findForeignKeyViolations s (substFK tname fk0)) acc.1
        (fun hc => hkey hc.symm)
      rcases hE with ⟨hn, hd⟩ | ⟨r, hr, hc⟩
      · exact Or.inl ⟨hpres.trans hn, hd⟩
      · exact Or.inr ⟨r, hpres.trans hr, hc⟩

/-- Dry-run characterization of the whole foreign-key fixer, per table name. -/
theorem fixFK_schema_char (action : String) (s : DBState) (name : String) :
    ∀ (ts : List Table) (acc : FixAcc)
      (done : List (Except String (List ValidationIssue))),
      acc.2 = s → EntryChar acc.1 name done →
      EntryChar ((ts.foldl (fun acc table =>
          table.ForeignKeys.foldl (fixFKStep action true none table.TableName) acc)
          acc)).1 name
        (done ++ fkFindOutcomes s ts name) ∧
      ((ts.foldl (fun acc table =>
          table.ForeignKeys.foldl (fixFKStep action true none table.TableName) acc)
          acc)).2 = s := by
  intro ts
  induction ts with
  | nil =>
    intro acc done h2 hE
    simpa [fkFindOutcomes] using ⟨hE, h2⟩
  | cons t ts ih =>
    intro acc done h2 hE
    rw [List.foldl_cons]
    have hout : fkFindOutcomes s (t :: ts) name =
        (t.ForeignKeys.map (substFK t.TableName)).filterMap (fun fk =>
          if fk.TableName == name then
            some (findForeignKeyViolations s fk) else none) ++
        fkFindOutcomes s ts name := by
      unfold fkFindOutcomes
      rw [List.flatMap_cons]
    rw [hout, ← List.append_assoc]
    obtain ⟨hE', h2'⟩ := fixFK_fk_char action s name t.TableName t.ForeignKeys
      acc done h2 hE
    exact ih _ _ h2' hE'

/-- C7 (amended): in dry-run mode (no validation configuration), each table's
accumulated `FixResult` is characterized by its sub-operation outcomes:
`IssuesFound` and `RecordsAffected` both sum the violation counts of the
successful searches, `Error` holds the most recent error message (empty if
none), and `Success` is true exactly when some sub-operation found
violations — so an errored sub-operation followed by a successful one leaves
`Success` true. -/
theorem claim_C7_amended_accumulation (s : DBState) (schema : Schema)
    (action defaultValue name : String) :
    (∀ r, mapLookup
        (FixNullValueViolations s schema action defaultValue true none).1 name =
        some r →
      DryRunChar r (nullFindOutcomes s schema name)) ∧
    (∀ r, mapLookup (FixForeignKeyViolations s schema action true none).1 name =
        some r →
      DryRunChar r (fkFindOutcomes s schema name)) := by
  constructor
  · intro r hr
    obtain ⟨hE, _⟩ := fixNull_schema_char action defaultValue s name schema
      ([], s) [] rfl (Or.inl ⟨rfl, rfl⟩)
    unfold FixNullValueViolations at hr
    simp only [List.nil_append] at hE
    rcases hE with ⟨hn, _⟩ | ⟨r', hr', hc⟩
    · rw [hr] at hn; cases hn
    · rw [hr] at hr'
      injection hr' with hrr
      rw [hrr]
      exact hc
  · intro r hr
    obtain ⟨hE, _⟩ := fixFK_schema_char action s name schema ([], s) [] rfl
      (Or.inl ⟨rfl, rfl⟩)
    unfold FixForeignKeyViolations at hr
    simp only [List.nil_append] at hE
    rcases hE with ⟨hn, _⟩ | ⟨r', hr', hc⟩
    · rw [hr] at hn; cases hn
    · rw [hr] at hr'
      injection hr' with hrr
      rw [hrr]
      exact hc

/-- C7 counterexample: after a successful sub-operation (column `a`, one
violation) a later sub-operation for the same table errors (column `b`
missing), yet the accumulated result keeps `Success = true` while `Error` is
non-empty — refuting "Success is false whenever at least one sub-operation
errored". -/
theorem claim_C7_counterexample :
    mapLookup (FixNullValueViolations c7State c7Schema "remove" "" true none).1
      "t" = some c7Result ∧
    c7Result.Error ≠ "" ∧ c7Result.Success = true := by
  refine ⟨by rfl, by decide, rfl⟩

theorem claim_C7_amended_accumulation_witness :
    DryRunChar c7Result (nullFindOutcomes c7State c7Schema "t") ∧
    DryRunChar c7FKResult (fkFindOutcomes c7State c7Schema "t") :=
  ⟨(claim_C7_amended_accumulation c7State c7Schema "remove" "" "t").1 c7Result
    (by rfl),
   (claim_C7_amended_accumulation c7State c7Schema "remove" "" "t").2 c7FKResult
    (by rfl)⟩

theorem claim_C1_dry_run_witness :
    (FixForeignKeyViolations c1State c1Schema "remove" true none).2 = c1State ∧
    c1FKResult.RecordsAffected = c1FKResult.IssuesFound ∧
    (FixNullValueViolations c1State c1Schema "remove" "" true none).2 = c1State ∧
    c1NullResult.RecordsAffected = c1NullResult.IssuesFound :=
  ⟨(claim_C1_dry_run c1State c1Schema "remove" "" none).1.1,
   (claim_C1_dry_run c1State c1Schema "remove" "" none).1.2 "orders" c1FKResult
     (by rfl),
   (claim_C1_dry_run c1State c1Schema "remove" "" none).2.1,
   (claim_C1_dry_run c1State c1Schema "remove" "" none).2.2 "orders" c1NullResult
     (by rfl)⟩

theorem claim_C5_modified_columns_witness :
    mapLookup (compareTableStructures c5CurTable c5TgtTable).ModifiedColumns
      "amount" =
      (if c5CurCol.DataType = c5TgtCol.DataType ∧
          c5CurCol.IsNullable = c5TgtCol.IsNullable ∧
          goFormatV c5CurCol.DefaultValue = goFormatV c5TgtCol.DefaultValue
       then none
       else some (ColumnDiff.mk c5CurCol c5TgtCol)) :=
  claim_C5_modified_columns c5CurTable c5TgtTable "amount" c5CurCol c5TgtCol
    (by rfl) (by rfl)

theorem claim_C6_missing_objects_witness :
    findForeignKeyViolations c6State c6fk1 = .ok [missingSourceTableIssue c6fk1] ∧
    findForeignKeyViolations c6State c6fk2 =
      .ok [missingReferencedTableIssue c6fk2] ∧
    findForeignKeyViolations c6State c6fk3 =
      .ok [missingSourceColumnIssue c6fk3] ∧
    findForeignKeyViolations c6State c6fk4 =
      .ok [missingReferencedColumnIssue c6fk4] ∧
    ValidateForeignKeys c6State c6Schema =
      c6Schema.flatMap (fun t => t.ForeignKeys.flatMap
        (fun fk0 => fkIssuesOf c6State (substFK t.TableName fk0))) :=
  ⟨(claim_C6_missing_objects c6State c6fk1 c6Schema).1 (by rfl),
   (claim_C6_missing_objects c6State c6fk2 c6Schema).2.1 (by rfl) (by rfl),
   (claim_C6_missing_objects c6State c6fk3 c6Schema).2.2.1 (by rfl) (by rfl)
     (by rfl),
   (claim_C6_missing_objects c6State c6fk4 c6Schema).2.2.2.1 (by rfl) (by rfl)
     (by rfl) (by rfl),
   (claim_C6_missing_objects c6State c6fk1 c6Schema).2.2.2.2⟩

theorem claim_C8_identifier_column_witness :
    getIdentifierColumn c8State "orders" = "id" ∧
    getIdentifierColumn c8State "plain" = "x" ∧
    getIdentifierColumn c8State "ghost" = "1" :=
  ⟨(claim_C8_identifier_column c8State "orders").1 []
      "id" ["orders_id", "uuid", "guid", "key"] (by rfl) (by simp) (by rfl),
   (claim_C8_identifier_column c8State "plain").2.1 (by decide)
      { ColumnName := "x", DataType := "text" }
      [{ ColumnName := "y", DataType := "text" }] (by rfl),
   (claim_C8_identifier_column c8State "ghost").2.2 (by decide) (by rfl)⟩

theorem claim_C10_null_fix_entries_witness :
    mapContains (FixNullValueViolations c10State c10Schema "remove" "" true
      none).1 "u" = true ∧
    mapLookup (FixNullValueViolations c10State c10Schema "remove" "" true
      none).1 "u" =
      some { IssuesFound := 0, RecordsAffected := 0, Success := false,
             Error := "", Details := "" } := by
  have h := claim_C10_null_fix_entries c10State c10Schema "remove" "" true none
    c10TableU (by decide)
  refine ⟨h.1, h.2 ?_⟩
  intro t' ht' hname c hc hnn
  have ht'' : t' = c10TableT ∨ t' = c10TableU := by
    simpa [c10Schema] using ht'
  rcases ht'' with rfl | rfl
  · exact absurd hname (by decide)
  · have hc' : c = c10ColB := by simpa [c10TableU] using hc
    rw [hc'] at hnn
    exact absurd hnn (by decide)

end DBMig

